import Mathlib

/-!
# Verification of the PDF outline extractor core (`src/solution.py`)

Shallow embedding of the document-structure analysis, title extraction,
heading classification and outline assembly pipeline of the
`PDFOutlineExtractor` class, together with theorems settling a set of
behavioral claims about it (C1-C10 below).

Modelling conventions:
* Python `str` is modelled as Lean `String` (ASCII-oriented helpers mirror
  the CPython semantics of the operations actually used by the source).
* Python floats are modelled as exact rationals `ℚ`.  `numpy.std` returns
  a square root; every comparison of the source of the shape
  `x >= avg + k*std` is encoded exactly over `ℚ` by the equivalent
  squared comparison (see `geMeanPlusKStd` and the bridging lemma
  `geMeanPlusKStd_iff_real`), so that all definitions stay executable.
* Python dicts keyed by page are modelled as `ℤ → Option _` lookups plus
  explicit first-occurrence key lists where iteration order matters.
* The one reachable uncaught exception of the source
  (`text[0]` on an empty cleaned heading text, line 522) is modelled by an
  `Option`-valued filtering stage, and the type-confused `return` of a
  plain string from `extract_outline` (lines 690/692) by a dedicated
  constructor of `OutlineResult`.
-/

namespace PdfExtract

/-! ## Python string primitives -/

/-- Python whitespace (`str.strip`, `\s`, `str.split`): space, tab, newline,
carriage return, vertical tab, form feed. -/
def pyIsSpace (c : Char) : Bool :=
  c = ' ' || c = '\t' || c = '\n' || c = '\r' || c = '\x0b' || c = '\x0c'

/-- `str.lower()` (ASCII). -/
def pyLower (s : String) : String := ⟨s.data.map Char.toLower⟩

/-- Trim leading and trailing Python whitespace from a character list. -/
def wsTrim (l : List Char) : List Char :=
  ((l.dropWhile pyIsSpace).reverse.dropWhile pyIsSpace).reverse

/-- Python `str.strip()`. -/
def pyStrip (s : String) : String := ⟨wsTrim s.data⟩

/-- Python `str.isdigit()`: nonempty and all characters digits. -/
def pyIsDigitStr (s : String) : Bool :=
  !s.data.isEmpty && s.data.all Char.isDigit

/-- Python `str.isupper()`: at least one cased character and no lowercase
cased character (ASCII: cased = alphabetic). -/
def pyIsUpper (s : String) : Bool :=
  s.data.any Char.isAlpha && s.data.all (fun c => !c.isLower)

/-- Python `str.islower()` on a single character (ASCII). -/
def pyCharIsLower (c : Char) : Bool := c.isLower

/-- Number of words of Python `str.split()` (without argument): the number
of maximal nonempty runs of non-whitespace characters. -/
def pyWordCount (s : String) : ℕ :=
  (s.data.foldl (fun (st : ℕ × Bool) c =>
    if pyIsSpace c then (st.1, false)
    else if st.2 then st else (st.1 + 1, true)) (0, false)).1

/-- Python substring test (`needle in haystack`). -/
def pyContains (hay needle : String) : Bool :=
  hay.data.tails.any (fun t => needle.data.isPrefixOf t)

/-- Python `str.startswith`. -/
def pyStartsWith (s p : String) : Bool := p.data.isPrefixOf s.data

/-- Python `str.endswith`. -/
def pyEndsWith (s p : String) : Bool := p.data.isSuffixOf s.data

/-- Python `str.count(c)` for a single character. -/
def pyCountChar (s : String) (c : Char) : ℕ := s.data.count c

/-- `re.sub(r'\.+$', '', t)`: remove trailing dots. -/
def dropTrailingDots (s : String) : String :=
  ⟨((s.data.reverse.dropWhile (fun c => c = '.')).reverse)⟩

/-- Worker for `collapseWsL`: the flag records whether the previous
character was whitespace (i.e. we are inside a run already emitted as one
space). -/
def collapseGo (inWs : Bool) : List Char → List Char
  | [] => []
  | c :: rest =>
    if pyIsSpace c then
      if inWs then collapseGo true rest else ' ' :: collapseGo true rest
    else c :: collapseGo false rest

/-- `re.sub(r'\s+', ' ', t)`: collapse each maximal whitespace run to one
space. -/
def collapseWsL (l : List Char) : List Char := collapseGo false l

/-- String version of `collapseWsL`. -/
def collapseWs (s : String) : String := ⟨collapseWsL s.data⟩

/-- `str.replace('\n', ' ')`. -/
def replaceNewlines (s : String) : String :=
  ⟨s.data.map (fun c => if c = '\n' then ' ' else c)⟩

/-- `str.replace('  ', ' ')`: left-to-right non-overlapping replacement of
double spaces by single spaces. -/
def replaceDoubleSpaceL : List Char → List Char
  | [] => []
  | [c] => [c]
  | ' ' :: ' ' :: rest => ' ' :: replaceDoubleSpaceL rest
  | c :: c2 :: rest => c :: replaceDoubleSpaceL (c2 :: rest)

/-- String version of `replaceDoubleSpaceL`. -/
def replaceDoubleSpace (s : String) : String := ⟨replaceDoubleSpaceL s.data⟩

/-- `re.sub(r'[^\w\s\-\.]', '', t)`: keep only word characters
(alphanumeric or underscore), whitespace, hyphen and dot. -/
def removeSpecialChars (s : String) : String :=
  ⟨s.data.filter (fun c => c.isAlphanum || c = '_' || pyIsSpace c || c = '-' || c = '.')⟩

/-- Worker for `pySplit` (fuel-indexed so that the definition is
structurally recursive and kernel-reducible; the fuel is always
sufficient since every step consumes at least one character). -/
def pySplitGo (sep : List Char) : ℕ → List Char → List Char → List (List Char)
  | _, [], acc => [acc.reverse]
  | 0, l, acc => [acc.reverse ++ l]
  | fuel + 1, c :: rest, acc =>
    if sep.isPrefixOf (c :: rest) then
      acc.reverse :: pySplitGo sep fuel ((c :: rest).drop sep.length) []
    else pySplitGo sep fuel rest (c :: acc)

/-- Python `str.split(sep)` with a nonempty separator: left-to-right
non-overlapping splitting, keeping empty pieces. -/
def pySplit (s sep : String) : List String :=
  (pySplitGo sep.data s.data.length s.data []).map (fun l => ⟨l⟩)

/-- `' '.join(strings)`. -/
def joinSpace (l : List String) : String :=
  match l with
  | [] => ""
  | s :: rest => rest.foldl (fun acc t => acc ++ " " ++ t) s

/-! ## Numeric primitives (exact-rational model of the float operations) -/

/-- Python `round()` to an integer: round half to even (banker's rounding). -/
def pyround (q : ℚ) : ℤ :=
  let f : ℤ := ⌊q⌋
  let r : ℚ := q - f
  if r < 1/2 then f
  else if 1/2 < r then f + 1
  else if f % 2 = 0 then f else f + 1

/-- Maximum of a rational list (0 on the empty list; the source only takes
maxima of nonempty lists). -/
def qmax (l : List ℚ) : ℚ := l.foldr max (l.headD 0)

/-- Minimum of a rational list (0 on the empty list). -/
def qmin (l : List ℚ) : ℚ := l.foldr min (l.headD 0)

/-- `np.mean`. -/
def qmean (l : List ℚ) : ℚ := l.sum / l.length

/-- The square of `np.std` (population variance).  The source only ever
uses `std` inside comparisons `x >= avg + k*std`, which are encoded
exactly through this variance; see `geMeanPlusKStd`. -/
def qvar (l : List ℚ) : ℚ := (l.map (fun x => (x - qmean l) ^ 2)).sum / l.length

/-- Stable ascending insertion into a sorted rational list. -/
def insSortedQ (x : ℚ) : List ℚ → List ℚ
  | [] => [x]
  | y :: ys => if x < y then x :: y :: ys else y :: insSortedQ x ys

/-- Ascending sort of a rational list. -/
def sortQ (l : List ℚ) : List ℚ := l.foldr insSortedQ []

/-- `np.percentile(l, q)` with the default linear interpolation. -/
def qpercentile (l : List ℚ) (q : ℚ) : ℚ :=
  let s := sortQ l
  let n := s.length
  let h : ℚ := (n - 1) * q / 100
  let lo : ℕ := ⌊h⌋.toNat
  let flo := s.getD lo 0
  flo + (h - lo) * (s.getD (lo + 1) flo - flo)

/-- `np.median`, which equals the 50th percentile under linear
interpolation. -/
def qmedian (l : List ℚ) : ℚ := qpercentile l 50

/-- Exact encoding of `x ≥ avg + k * std` where `std = √var`, for
`k ≥ 0` and `var ≥ 0`: equivalent to `x ≥ avg ∧ (x-avg)² ≥ k²·var`. -/
def geMeanPlusKStd (x avg var k : ℚ) : Bool :=
  avg ≤ x && k ^ 2 * var ≤ (x - avg) ^ 2

/-! ## Data model -/

/-- A text span as assembled by `extract_text_spans` (the page-decoder
wrapper): text, font size, bold/italic flags, position and bounding box.
`x`, `y`, `width` are the derived fields the source stores alongside
`bbox` (`x = bbox[0]`, `y = bbox[1]`, `width = bbox[2] - bbox[0]`). -/
structure Span where
  text : String
  size : ℚ
  bold : Bool
  italic : Bool
  page : ℤ
  bbox0 : ℚ
  bbox1 : ℚ
  bbox2 : ℚ
  bbox3 : ℚ
deriving DecidableEq

def Span.x (s : Span) : ℚ := s.bbox0
def Span.y (s : Span) : ℚ := s.bbox1
def Span.width (s : Span) : ℚ := s.bbox2 - s.bbox0

/-- A merged line as produced by `merge_lines` and consumed by all
downstream stages. -/
structure Line where
  page : ℤ
  y : ℚ
  text : String
  font_size : ℚ
  avg_font_size : ℚ
  is_bold : Bool
  is_italic : Bool
  length : ℕ
  word_count : ℕ
  bbox0 : ℚ
  bbox1 : ℚ
  bbox2 : ℚ
  bbox3 : ℚ
deriving DecidableEq

/-- A final outline heading: level string `"H1"`..`"H4"`, cleaned text,
page (`0` is the document-level sentinel). -/
structure Heading where
  level : String
  text : String
  page : ℤ
deriving DecidableEq

/-- A title candidate (`extract_title`, lines 277-300). -/
structure Candidate where
  text : String
  score : ℤ
  page : ℤ
  y : ℚ
  font_size : ℚ
  is_bold : Bool
  word_count : ℕ
  relative_y : ℚ
deriving DecidableEq

/-- Result of `extract_outline`.  The source's `extract_outline` is
annotated `List[Dict]` but can also return a plain string (lines 690 and
692, inside the hope/see/there fallback) and can raise an uncaught
`IndexError` (`text[0]` on an empty cleaned heading text, line 522);
`strRet` and `err` model those two escapes. -/
inductive OutlineResult where
  | ol (hs : List Heading)
  | strRet (s : String)
  | err
deriving DecidableEq

/-- The headings carried by an `OutlineResult` (none for the string-typed
return or the uncaught exception). -/
def outlineHeadings : OutlineResult → List Heading
  | .ol hs => hs
  | .strRet _ => []
  | .err => []

/-! ## Fixed vocabularies (`PDFOutlineExtractor.__init__` and
`extract_outline`) -/

/-- `self.skip_words`. -/
def skipWords : List String :=
  ["date", "signature", "name", "age", "relationship", "s.no", "page", "www",
   "copyright", "notice", "document", "entirety", "extracts", "acknowledged",
   "version", "revision", "history", "tracking", "number", "id", "ref"]

/-- `any(skip_word in t for skip_word in self.skip_words)`. -/
def anySkipWord (t : String) : Bool := skipWords.any (fun w => pyContains t w)

/-- The form-field vocabulary of `extract_outline` (lines 409-411). -/
def formIndicators : List String :=
  ["designation", "service", "whether", "employed", "entitled", "concession",
   "availed", "block", "railfare", "busfare", "headquarters", "amount", "advance",
   "date", "signature", "name", "age", "relationship"]

/-- `form_count`: how many of the form-field terms occur in the full
document text. -/
def formCount (all_text : String) : ℕ :=
  (formIndicators.filter (fun w => pyContains all_text w)).length

/-- `' '.join([line['text'].lower() for line in lines])`. -/
def joinLower (lines : List Line) : String :=
  joinSpace (lines.map (fun l => pyLower l.text))

/-- The brochure archetype trigger (`'pathway' in all_text and 'options'
in all_text`). -/
def pathwayTrigger (all_text : String) : Bool :=
  pyContains all_text "pathway" && pyContains all_text "options"

/-- The poster archetype trigger (`'hope' in all_text and 'see' in
all_text and 'there' in all_text`). -/
def hopeTrigger (all_text : String) : Bool :=
  pyContains all_text "hope" && pyContains all_text "see" && pyContains all_text "there"

/-! ## `merge_lines` -/

/-- Quantized y key: `round(y / y_tolerance) * y_tolerance`. -/
def yKey (y ytol : ℚ) : ℚ := (pyround (y / ytol) : ℚ) * ytol

/-- First-occurrence list of the grouping keys `(page, y_key)`, i.e. the
iteration order of the Python `defaultdict`. -/
def groupKeys (spans : List Span) (ytol : ℚ) : List (ℤ × ℚ) :=
  spans.foldl (fun acc s =>
    let k := (s.page, yKey s.y ytol)
    if k ∈ acc then acc else acc ++ [k]) []

/-- Stable ascending insertion of a span by x-coordinate. -/
def insSortedSpanX (s : Span) : List Span → List Span
  | [] => [s]
  | t :: ts => if s.x < t.x then s :: t :: ts else t :: insSortedSpanX s ts

/-- Stable sort of spans by x (`line_spans.sort(key=lambda s: s['x'])`). -/
def sortSpansByX (l : List Span) : List Span :=
  l.foldl (fun acc x => insSortedSpanX x acc) []

/-- The text-merging fold of `merge_lines` (lines 99-106): concatenate
span texts, inserting a space when the horizontal gap from the previous
span's right edge exceeds `x_tolerance`. -/
def mergeTexts (xtol : ℚ) (spans : List Span) : String :=
  (spans.foldl (fun (st : String × Option ℚ) s =>
    let withGap :=
      match st.2 with
      | some cx => if xtol < |s.x - cx| then st.1 ++ " " else st.1
      | none => st.1
    (withGap ++ s.text, some (s.x + s.width))) ("", none)).1

/-- Build the merged `Line` for one `(page, y_key)` group. -/
def buildLine (xtol : ℚ) (page : ℤ) (y : ℚ) (group : List Span) : Line :=
  let sorted := sortSpansByX group
  let text := pyStrip (replaceDoubleSpace (mergeTexts xtol sorted))
  let sizes := sorted.map Span.size
  ⟨page, y, text, qmax sizes, qmean sizes,
   sorted.any Span.bold, sorted.any Span.italic,
   text.data.length, pyWordCount text,
   qmin (sorted.map Span.bbox0), qmin (sorted.map Span.bbox1),
   qmax (sorted.map Span.bbox2), qmax (sorted.map Span.bbox3)⟩

/-- `merge_lines(spans, y_tolerance, x_tolerance)`: group spans by page
and quantized y, then merge each group into a `Line` (group iteration in
dict insertion order). -/
def merge_lines (spans : List Span) (ytol xtol : ℚ) : List Line :=
  (groupKeys spans ytol).map (fun k =>
    buildLine xtol k.1 k.2
      (spans.filter (fun s => s.page = k.1 && yKey s.y ytol = k.2)))

/-! ## `analyze_document_structure` and friends -/

/-- Per-page font statistics (`font_stats[page]`); `var` stores the square
of `np.std`. -/
structure FontStats where
  max : ℚ
  min : ℚ
  avg : ℚ
  var : ℚ
  median : ℚ
  q75 : ℚ
  q90 : ℚ
deriving DecidableEq

/-- Global font statistics (`global_font_stats`); computed over all
positive font sizes; `var` stores the square of `np.std`. -/
structure GlobalFontStats where
  max : ℚ
  min : ℚ
  avg : ℚ
  var : ℚ
  median : ℚ
  q90 : ℚ
deriving DecidableEq

/-- Text-pattern histogram (`analyze_text_patterns`). -/
structure TextPatterns where
  numbered_sections : ℕ
  all_caps_headings : ℕ
  title_case_headings : ℕ
  colon_endings : ℕ
  short_texts : ℕ
  long_texts : ℕ
deriving DecidableEq

/-- Per-page layout statistics (`analyze_layout_patterns`); `var_y`
stores the square of `np.std`. -/
structure LayoutStats where
  top_margin : ℚ
  bottom_margin : ℚ
  left_margin : ℚ
  right_margin : ℚ
  avg_y : ℚ
  var_y : ℚ
deriving DecidableEq

/-- `DocumentStructure` as returned by `analyze_document_structure`.
The `common_fonts` entry of the source (`Counter.most_common(10)`) is
never read by any downstream stage and is omitted. -/
structure DocStructure where
  font_stats : ℤ → Option FontStats
  global_font_stats : Option GlobalFontStats
  total_pages : ℕ
  text_patterns : TextPatterns
  layout_stats : ℤ → Option LayoutStats

/-- Worker for `pagesInOrder`, carrying the pages already seen. -/
def pagesInOrderGo (seen : List ℤ) : List Line → List ℤ
  | [] => []
  | l :: rest =>
    if l.page ∈ seen then pagesInOrderGo seen rest
    else l.page :: pagesInOrderGo (l.page :: seen) rest

/-- Distinct pages in first-occurrence order (Python `defaultdict`
grouping key order). -/
def pagesInOrder (lines : List Line) : List ℤ := pagesInOrderGo [] lines

/-- The lines of one page, in input order. -/
def linesOnPage (lines : List Line) (p : ℤ) : List Line :=
  lines.filter (fun l => l.page = p)

/-- Per-page font statistics (lines 713-725).  The page groups are
nonempty by construction, so the `if font_sizes` guard of the source is
always taken. -/
def pageFontStats (lines : List Line) (p : ℤ) : Option FontStats :=
  if p ∈ pagesInOrder lines then
    let sizes := (linesOnPage lines p).map Line.font_size
    some ⟨qmax sizes, qmin sizes, qmean sizes, qvar sizes, qmedian sizes,
      (if 1 < sizes.length then qpercentile sizes 75 else qmax sizes),
      (if 1 < sizes.length then qpercentile sizes 90 else qmax sizes)⟩
  else none

/-- Global font statistics over all positive sizes (lines 728-742);
`none` models the empty dict when no line has a positive size. -/
def globalFontStats (lines : List Line) : Option GlobalFontStats :=
  let sizes := (lines.map Line.font_size).filter (fun s => 0 < s)
  if sizes.isEmpty then none
  else some ⟨qmax sizes, qmin sizes, qmean sizes, qvar sizes, qmedian sizes,
    (if 1 < sizes.length then qpercentile sizes 90 else qmax sizes)⟩

/-! ## Regex matchers

Each of the regular expressions used by the source is decided by a small
hand-written matcher.  `re.match` anchors at the start only; patterns
ending in `$` are whole-string tests.  Since every `+`-group in these
patterns is followed by a character outside its class, maximal-run
consumption is equivalent to backtracking. -/

/-- Consume a nonempty maximal run of characters satisfying `p`. -/
def chopRun (p : Char → Bool) (l : List Char) : Option (List Char) :=
  let r := l.takeWhile p
  if r.isEmpty then none else some (l.drop r.length)

/-- Consume one expected character. -/
def chopChar (c : Char) : List Char → Option (List Char)
  | x :: xs => if x = c then some xs else none
  | [] => none

/-- Does the list start with an uppercase letter? -/
def headIsUpper : List Char → Bool
  | c :: _ => c.isUpper
  | [] => false

/-- `re.match(r'^\d+\.', t)`. -/
def matchNumbered (t : String) : Bool :=
  ((chopRun Char.isDigit t.data).bind (chopChar '.')).isSome

/-- `re.match(r'^[IVX]+\.', t)`. -/
def matchRoman (t : String) : Bool :=
  ((chopRun (fun c => c = 'I' || c = 'V' || c = 'X') t.data).bind (chopChar '.')).isSome

/-- `re.match(r'^[A-Z]\.', t)`. -/
def matchLetterDot (t : String) : Bool :=
  match t.data with
  | a :: b :: _ => a.isUpper && b = '.'
  | _ => false

/-- `re.match(r'^\d+\.\d+', t)`. -/
def matchSubNumbered (t : String) : Bool :=
  (((chopRun Char.isDigit t.data).bind (chopChar '.')).bind (chopRun Char.isDigit)).isSome

/-- `re.match(r'^\d+\.\d+\.\d+', t)`. -/
def matchTripleNumbered (t : String) : Bool :=
  (((((chopRun Char.isDigit t.data).bind (chopChar '.')).bind
    (chopRun Char.isDigit)).bind (chopChar '.')).bind (chopRun Char.isDigit)).isSome

/-- `re.match(r'^\d+\.\s+[A-Z]', t)`. -/
def matchNumDotSpCap (t : String) : Bool :=
  ((((chopRun Char.isDigit t.data).bind (chopChar '.')).bind
    (chopRun pyIsSpace)).map headIsUpper).getD false

/-- `re.match(r'^\d+\.\d+\s+[A-Z]', t)`. -/
def matchSubNumSpCap (t : String) : Bool :=
  ((((((chopRun Char.isDigit t.data).bind (chopChar '.')).bind
    (chopRun Char.isDigit)).bind (chopRun pyIsSpace))).map headIsUpper).getD false

/-- `re.match(r'^[A-Z][A-Z\s]+$', t)`: an uppercase letter followed by a
nonempty run of uppercase letters and whitespace, covering the whole
string. -/
def matchAllCapsLine (t : String) : Bool :=
  match t.data with
  | c :: rest => c.isUpper && !rest.isEmpty &&
      rest.all (fun a => a.isUpper || pyIsSpace a)
  | [] => false

/-- `re.match(r'^[A-Z][a-z\s]+$', t)`. -/
def matchTitleCaseLine (t : String) : Bool :=
  match t.data with
  | c :: rest => c.isUpper && !rest.isEmpty &&
      rest.all (fun a => a.isLower || pyIsSpace a)
  | [] => false

/-- `re.match(r'^[A-Z][a-z\s]+:$', t)`. -/
def matchTitleColon (t : String) : Bool :=
  t.data.getLast? = some ':' && matchTitleCaseLine ⟨t.data.dropLast⟩

/-- `re.match(r'^[A-Z][A-Z\s]+:$', t)`. -/
def matchAllCapsColon (t : String) : Bool :=
  t.data.getLast? = some ':' && matchAllCapsLine ⟨t.data.dropLast⟩

/-- `re.match(r'^[A-Z][a-z\s]+[A-Z][a-z\s]+$', t)`: whole string is an
uppercase letter, a nonempty lower/whitespace run, one more uppercase
letter, and a nonempty lower/whitespace run — equivalently, the tail
contains exactly one uppercase letter, interior, and everything else in
the tail is lowercase or whitespace. -/
def matchMultiTitleCase (t : String) : Bool :=
  match t.data with
  | [] => false
  | c :: rest =>
    c.isUpper &&
    (rest.filter Char.isUpper).length = 1 &&
    rest.all (fun a => a.isUpper || a.isLower || pyIsSpace a) &&
    (match rest.findIdx? Char.isUpper with
     | some j => decide (1 ≤ j) && decide (j + 1 < rest.length)
     | none => false)

/-- `re.match(r'^[A-Z][a-z]+ [A-Z][a-z]+$', t)` (two-token proper name). -/
def matchProperName (t : String) : Bool :=
  match t.data with
  | c :: rest =>
    c.isUpper &&
    (match chopRun Char.isLower rest with
     | some (' ' :: d :: rest2) =>
       d.isUpper &&
       (match chopRun Char.isLower rest2 with
        | some [] => true
        | _ => false)
     | _ => false)
  | [] => false

/-- `re.match(r'^\d{1,2}/\d{1,2}/\d{4}$', t)` (bare date). -/
def matchDateSlash (t : String) : Bool :=
  let r1 := t.data.takeWhile Char.isDigit
  (1 ≤ r1.length && r1.length ≤ 2) &&
  (match chopChar '/' (t.data.drop r1.length) with
   | some l2 =>
     let r2 := l2.takeWhile Char.isDigit
     (1 ≤ r2.length && r2.length ≤ 2) &&
     (match chopChar '/' (l2.drop r2.length) with
      | some l3 => l3.length = 4 && l3.all Char.isDigit
      | none => false)
   | none => false)

/-- `re.match(r'^[•\-\*]\s+', t)` (bullet/list marker). -/
def matchBullet (t : String) : Bool :=
  match t.data with
  | c :: d :: _ => (c = '•' || c = '-' || c = '*') && pyIsSpace d
  | _ => false

/-- `re.match(r'^\d+\.\d+\s+\d{4}', t)` (revision-history entry). -/
def matchRevYear (t : String) : Bool :=
  (((((chopRun Char.isDigit t.data).bind (chopChar '.')).bind
    (chopRun Char.isDigit)).bind (chopRun pyIsSpace)).map
      (fun l => decide (4 ≤ (l.takeWhile Char.isDigit).length))).getD false

/-- `re.match(r'^\d+\.\d+\s+\d+\s+[A-Z]', t)`. -/
def matchRevNumCap (t : String) : Bool :=
  ((((((chopRun Char.isDigit t.data).bind (chopChar '.')).bind
    (chopRun Char.isDigit)).bind (chopRun pyIsSpace)).bind
      (chopRun Char.isDigit)).bind (chopRun pyIsSpace)).map headIsUpper |>.getD false

/-- `re.match(r'^\d+\.\d+\s+[A-Z]+\s+\d+', t)`. -/
def matchRevCapNum (t : String) : Bool :=
  ((((((chopRun Char.isDigit t.data).bind (chopChar '.')).bind
    (chopRun Char.isDigit)).bind (chopRun pyIsSpace)).bind
      (chopRun Char.isUpper)).bind (chopRun pyIsSpace)).map
        (fun l => (l.headD ' ').isDigit) |>.getD false

/-- `re.match(r'^[A-Z\s]+,?\s+[A-Z]{2}\s+\d{5}$', t)` ("City, ST 12345"
address pattern), decided from the right end: exactly five trailing
digits, a whitespace run, exactly two uppercase letters preceded by
whitespace, an optional comma, and a nonempty `[A-Z\s]` head (which may
borrow from the whitespace run when nothing else precedes it). -/
def matchAddress (t : String) : Bool :=
  let r := t.data.reverse
  let dr := r.takeWhile Char.isDigit
  dr.length = 5 &&
  (let r1 := r.drop 5
   let w1 := r1.takeWhile pyIsSpace
   !w1.isEmpty &&
   (match r1.drop w1.length with
    | a :: b :: r3 =>
      a.isUpper && b.isUpper &&
      (let w2 := r3.takeWhile pyIsSpace
       !w2.isEmpty &&
       (match r3.drop w2.length with
        | ',' :: r5 =>
          !r5.isEmpty && r5.all (fun c => c.isUpper || pyIsSpace c)
        | r4 =>
          (!r4.isEmpty && r4.all (fun c => c.isUpper || pyIsSpace c)) ||
          (r4.isEmpty && 2 ≤ w2.length)))
    | _ => false))

/-- `re.search(r'\d{4}', t)`: four consecutive digits anywhere. -/
def containsYear4 (t : String) : Bool :=
  t.data.tails.any (fun l => 4 ≤ (l.takeWhile Char.isDigit).length)

/-- `re.match(r'^\d+', t)`. -/
def startsWithDigit (t : String) : Bool :=
  match t.data with
  | c :: _ => c.isDigit
  | [] => false

/-! ## `analyze_text_patterns`, `analyze_layout_patterns`,
`analyze_document_structure` -/

/-- `analyze_text_patterns` (lines 759-789): count the mutually
non-exclusive text-shape buckets over all nonempty stripped line texts. -/
def analyze_text_patterns (lines : List Line) : TextPatterns :=
  let ts := (lines.map (fun l => pyStrip l.text)).filter (fun t => t ≠ "")
  ⟨(ts.filter matchNumbered).length,
   (ts.filter (fun t => pyIsUpper t && 3 < t.data.length)).length,
   (ts.filter (fun t => matchTitleCaseLine t && 3 < t.data.length)).length,
   (ts.filter (fun t => pyEndsWith t ":")).length,
   (ts.filter (fun t => t.data.length < 20)).length,
   (ts.filter (fun t => 100 < t.data.length)).length⟩

/-- `analyze_layout_patterns` (lines 791-813): per-page min/max/mean of
line positions; `var_y` stores the square of `np.std`. -/
def pageLayoutStats (lines : List Line) (p : ℤ) : Option LayoutStats :=
  if p ∈ pagesInOrder lines then
    let ys := (linesOnPage lines p).map Line.y
    let xs := (linesOnPage lines p).map Line.bbox0
    some ⟨qmin ys, qmax ys, qmin xs, qmax xs, qmean ys, qvar ys⟩
  else none

/-- `analyze_document_structure` (lines 705-757). -/
def analyze_document_structure (lines : List Line) : DocStructure :=
  ⟨pageFontStats lines, globalFontStats lines, (pagesInOrder lines).length,
   analyze_text_patterns lines, pageLayoutStats lines⟩

/-! ## `extract_title` -/

/-- Title text cleanup (lines 184-186): `replace('\n',' ')`,
`replace('  ',' ')`, `strip()`, then `re.sub(r'\.+$','')` and
`re.sub(r'\s+',' ')`. -/
def titleClean (text : String) : String :=
  collapseWs (dropTrailingDots (pyStrip (replaceDoubleSpace (replaceNewlines text))))

/-- `relative_y` within a page's observed layout (lines 229-230 / 1007-1008):
`(y - top) / (bottom - top)` when the height is positive, else `0`. -/
def layoutRelY (lay : LayoutStats) (y : ℚ) : ℚ :=
  let h := lay.bottom_margin - lay.top_margin
  if 0 < h then (y - lay.top_margin) / h else 0

/-- The stored `relative_y` of a candidate: the layout value when the page
has layout statistics, else `0` (line 285). -/
def storedRelY (ds : DocStructure) (page : ℤ) (y : ℚ) : ℚ :=
  match ds.layout_stats page with
  | some lay => layoutRelY lay y
  | none => 0

/-- Title global font tier (lines 203-212). -/
def titleGlobalScore (ds : DocStructure) (fs : ℚ) : ℤ :=
  match ds.global_font_stats with
  | some g =>
    if g.max * (95/100) ≤ fs then 50
    else if g.q90 ≤ fs then 40
    else if geMeanPlusKStd fs g.avg g.var 1 then 30
    else if g.avg ≤ fs then 20
    else 0
  | none => 0

/-- Title page font tier (lines 215-220). -/
def titlePageScore (ds : DocStructure) (page : ℤ) (fs : ℚ) : ℤ :=
  match ds.font_stats page with
  | some p => if p.q90 ≤ fs then 25 else if p.q75 ≤ fs then 15 else 0
  | none => 0

/-- Title position tier (lines 227-243). -/
def titlePositionScore (ds : DocStructure) (page : ℤ) (y : ℚ) : ℤ :=
  match ds.layout_stats page with
  | some lay =>
    let rel := layoutRelY lay y
    if rel < 1/10 then 25 else if rel < 2/10 then 15 else if rel < 3/10 then 10 else 0
  | none => if y < 200 then 20 else if y < 400 then 10 else 0

/-- Page priority (lines 246-249). -/
def titlePagePriority (page : ℤ) : ℤ := if page = 1 then 20 else if page = 2 then 5 else 0

/-- Word-count band (lines 252-256). -/
def titleWordScore (wc : ℕ) : ℤ :=
  if 3 ≤ wc ∧ wc ≤ 15 then 20 else if 2 ≤ wc ∧ wc ≤ 20 then 15 else 0

/-- `not any(char.isdigit() for char in t[:3])`. -/
def noDigitIn3 (t : String) : Bool := (t.data.take 3).all (fun c => !c.isDigit)

/-- Casing-pattern tier (lines 262-267, mutually exclusive). -/
def titlePatternScore (t : String) : ℤ :=
  if matchMultiTitleCase t then 30
  else if matchTitleCaseLine t && 5 < t.data.length then 25
  else if matchAllCapsLine t && 5 < t.data.length then 20
  else 0

/-- Document-histogram bonus (lines 270-273). -/
def titleDocPatternScore (ds : DocStructure) (t : String) : ℤ :=
  if 0 < ds.text_patterns.title_case_headings ∧ matchTitleCaseLine t = true then 10 else 0

/-- Full title score of one line (lines 200-273). -/
def titleScore (line : Line) (ds : DocStructure) (title : String) : ℤ :=
  titleGlobalScore ds line.font_size
  + titlePageScore ds line.page line.font_size
  + (if line.is_bold then 30 else 0)
  + titlePositionScore ds line.page line.y
  + titlePagePriority line.page
  + titleWordScore (pyWordCount title)
  + (if noDigitIn3 title then 15 else 0)
  + titlePatternScore title
  + titleDocPatternScore ds title

/-- Candidate production for one line (lines 180-300): basic filters,
skip-word check with the form override, scoring, and the two acceptance
rules (strict, and relaxed-with-boost for long descriptive titles). -/
def titleCandidateOf (ds : DocStructure) (line : Line) : Option Candidate :=
  let text := pyStrip line.text
  if text ≠ "" ∧ 3 < text.data.length ∧ pyIsDigitStr text = false then
    let title := titleClean text
    if anySkipWord (pyLower title) = true ∧
        ¬(pyContains (pyLower title) "form" = true ∨
          pyContains (pyLower title) "application" = true ∨
          pyContains (pyLower title) "advance" = true) then none
    else
      let score := titleScore line ds title
      let wc := pyWordCount title
      let rel := storedRelY ds line.page line.y
      if 50 < score ∧ 5 < title.data.length then
        some ⟨title, score, line.page, line.y, line.font_size, line.is_bold, wc, rel⟩
      else if 30 < score ∧ 20 < title.data.length ∧ 5 ≤ wc then
        some ⟨title, score + 20, line.page, line.y, line.font_size, line.is_bold, wc, rel⟩
      else none
  else none

/-- Strict (page, y) lexicographic order on lines. -/
def lineLt (a b : Line) : Bool := a.page < b.page || (a.page = b.page && a.y < b.y)

/-- Stable insertion for the (page, y) sort. -/
def insLineSorted (x : Line) : List Line → List Line
  | [] => [x]
  | y :: ys => if lineLt x y then x :: y :: ys else y :: insLineSorted x ys

/-- `sorted(lines, key=lambda x: (x['page'], x['y']))` (stable). -/
def sortLinesByPageY (l : List Line) : List Line :=
  l.foldl (fun acc x => insLineSorted x acc) []

/-- Stable insertion for the descending score sort. -/
def insCandDesc (x : Candidate) : List Candidate → List Candidate
  | [] => [x]
  | y :: ys => if y.score < x.score then x :: y :: ys else y :: insCandDesc x ys

/-- `title_candidates.sort(key=lambda x: x['score'], reverse=True)`
(stable). -/
def sortCandsDesc (l : List Candidate) : List Candidate :=
  l.foldl (fun acc x => insCandDesc x acc) []

/-- All accepted title candidates, in document (page, y) order. -/
def titleCandidates (lines : List Line) : List Candidate :=
  let ds := analyze_document_structure lines
  (sortLinesByPageY lines).filterMap (titleCandidateOf ds)

/-- The candidates ranked by score, best first. -/
def sortedTitleCandidates (lines : List Line) : List Candidate :=
  sortCandsDesc (titleCandidates lines)

/-- Continuation eligibility (lines 315-321). -/
def isContinuation (best c : Candidate) : Bool :=
  c.page = 1 && c.relative_y < 1/2 &&
  |c.relative_y - best.relative_y| < 1/5 &&
  best.font_size - 4 ≤ c.font_size &&
  c.text ≠ best.text && c.word_count ≤ 10 && 30 < c.score

/-- `continuation_score = score * 0.7 * (1 - |Δ relative_y|)` (line 325). -/
def contScore (best c : Candidate) : ℚ :=
  (c.score : ℚ) * (7/10) * (1 - |c.relative_y - best.relative_y|)

/-- Stable insertion for the descending continuation-score sort. -/
def insContDesc (best x : Candidate) : List Candidate → List Candidate
  | [] => [x]
  | y :: ys =>
    if contScore best y < contScore best x then x :: y :: ys
    else y :: insContDesc best x ys

/-- Best continuation among the remaining candidates (lines 312-331). -/
def bestContinuation (best : Candidate) (rest : List Candidate) : Option Candidate :=
  ((rest.filter (isContinuation best)).foldl
    (fun acc x => insContDesc best x acc) []).head?

/-- The form field-label suffixes stripped from form-like titles (line 339). -/
def unwantedSuffixes : List String :=
  ["designation", "service", "whether", "employed", "entitled"]

/-- Strip the first matching field-label suffix and re-strip (lines 340-343). -/
def stripOneSuffix (t : String) : String :=
  match unwantedSuffixes.find? (fun suf => pyEndsWith (pyLower t) suf) with
  | some suf => pyStrip ⟨t.data.take (t.data.length - suf.data.length)⟩
  | none => t

/-- Suffix cleanup applied only to form-like titles (lines 337-343 and
349-355). -/
def stripFormSuffix (t : String) : String :=
  if pyContains (pyLower t) "form" || pyContains (pyLower t) "application" then
    stripOneSuffix t
  else t

/-- Announcement-word set of the poster override (line 374). -/
def announcementWords : List String :=
  ["hope", "see", "there", "come", "join", "visit", "you"]

/-- First line whose text jointly contains "hope", "see", "there"
(lines 361-367 / 622-636). -/
def hopeLine1 (lines : List Line) : Option Line :=
  lines.find? (fun l =>
    let t := pyLower (pyStrip l.text)
    pyContains t "hope" && pyContains t "see" && pyContains t "there")

/-- First ALL-CAPS announcement line (lines 370-375 / 640-652). -/
def hopeLine2 (lines : List Line) : Option Line :=
  lines.find? (fun l =>
    let t := pyStrip l.text
    pyIsUpper t && 8 < t.data.length &&
    announcementWords.any (fun w => pyContains (pyLower t) w))

/-- Prominent bold ALL-CAPS lines (lines 378-384 / 656-663). -/
def hopeProminentBold (lines : List Line) : List Line :=
  lines.filter (fun l =>
    let t := pyStrip l.text
    5 < t.data.length && pyIsUpper t && l.is_bold && 12 < l.font_size)

/-- Stable descending sort of lines by a rational key. -/
def insLineDescBy (key : Line → ℚ) (x : Line) : List Line → List Line
  | [] => [x]
  | y :: ys => if key y < key x then x :: y :: ys else y :: insLineDescBy key x ys

/-- `prominent_lines.sort(key=lambda x: x[1], reverse=True)` (stable). -/
def sortLinesDescBy (key : Line → ℚ) (l : List Line) : List Line :=
  l.foldl (fun acc x => insLineDescBy key x acc) []

/-- ALL-CAPS lines of length > 3 (lines 599-603 / 680-684). -/
def allCapsProminent (lines : List Line) : List Line :=
  lines.filter (fun l =>
    let t := pyStrip l.text
    3 < t.data.length && pyIsUpper t)

/-- The poster-document title fallback chain of `extract_title`
(lines 357-393). -/
def hopeTitleStr (lines : List Line) : String :=
  match hopeLine1 lines with
  | some l => collapseWs (pyStrip l.text) ++ "  "
  | none =>
    match hopeLine2 lines with
    | some l => pyStrip l.text
    | none =>
      match (sortLinesDescBy Line.font_size (hopeProminentBold lines)).head? with
      | some l => pyStrip l.text
      | none => "HOPE To SEE You THERE! "

/-- The tail of `extract_title` after multi-line handling (lines 347-395):
form-suffix cleanup, the poster override, and the two-trailing-space
return. -/
def titleAfter (lines : List Line) (best : Candidate) : String :=
  let final_title := stripFormSuffix best.text
  let all_text := joinLower lines
  if hopeTrigger all_text then hopeTitleStr lines
  else final_title ++ "  "

/-- `extract_title` (lines 169-395). -/
def extract_title (lines : List Line) : String :=
  match sortedTitleCandidates lines with
  | [] => "Untitled Document"
  | best :: rest =>
    if best.page = 1 ∧ best.relative_y < 3/10 then
      match bestContinuation best rest with
      | some cont => stripFormSuffix (best.text ++ "  " ++ cont.text) ++ "  "
      | none => titleAfter lines best
    else titleAfter lines best

/-! ## `classify_heading_level` -/

/-- Heading text cleanup inside the classifier (lines 935-937):
`re.sub(r'\.+$','')`, `re.sub(r'\s+',' ')`, `re.sub(r'[^\w\s\-\.]','')`.
Note: no `strip()`. -/
def headingClean (text : String) : String :=
  removeSpecialChars (collapseWs (dropTrailingDots text))

/-- Hard pre-rejection of the classifier (lines 906, 923-931): too short,
pure digits, trivial punctuation, boilerplate skip-words, or excessive
dots/underscores.  The source spreads these over four early returns;
their disjunction is order-independent. -/
def preReject (text : String) : Bool :=
  (text.data.length < 3 || pyIsDigitStr text ||
    text = "" || text = " " || text = "." || text = "," || text = ";" || text = ":") ||
  anySkipWord (pyLower text) ||
  (pyIsDigitStr text || text.data.length < 4) ||
  (10 < pyCountChar text '.' || 5 < pyCountChar text '_')

/-- Feature 1: global font tier (lines 943-954). -/
def hGlobalScore (ds : DocStructure) (fs : ℚ) : ℤ :=
  match ds.global_font_stats with
  | some g =>
    if g.max * (98/100) ≤ fs then 50
    else if g.q90 ≤ fs then 40
    else if geMeanPlusKStd fs g.avg g.var (3/2) then 35
    else if geMeanPlusKStd fs g.avg g.var 1 then 25
    else if g.avg ≤ fs then 15
    else 0
  | none => 0

/-- Feature 2: page font tier (lines 957-964). -/
def hPageScore (ds : DocStructure) (page : ℤ) (fs : ℚ) : ℤ :=
  match ds.font_stats page with
  | some p =>
    if p.q90 ≤ fs then 30
    else if p.q75 ≤ fs then 20
    else if geMeanPlusKStd fs p.avg p.var 1 then 15
    else 0
  | none => 0

/-- Feature 3: boldness (lines 967-968). -/
def hBoldScore (b : Bool) : ℤ := if b then 35 else 0

/-- Feature 4: numbering-style tier (lines 971-980); the numbering flags
are computed on the raw stripped text, the ALL-CAPS length test on the
cleaned text. -/
def hNumberingScore (text clean : String) : ℤ :=
  let has_numbering := matchNumbered text
  let has_sub := matchSubNumbered text
  if has_numbering && !has_sub then 40
  else if has_sub then 35
  else if matchRoman text then 30
  else if (pyIsUpper text && 2 < text.data.length) && 5 < clean.data.length then 30
  else if matchLetterDot text then 25
  else 0

/-- Feature 5: structural regex tier (lines 983-992). -/
def hRegexScore (clean : String) : ℤ :=
  if matchNumDotSpCap clean then 45
  else if matchSubNumSpCap clean then 40
  else if matchAllCapsLine clean && 5 < clean.data.length then 35
  else if matchTitleColon clean then 30
  else if matchAllCapsColon clean then 35
  else 0

/-- Feature 6: word-count band and no-leading-digit bonus
(lines 995-1002). -/
def hWordScore (clean : String) : ℤ :=
  let wc := pyWordCount clean
  (if 2 ≤ wc ∧ wc ≤ 8 then 20 else if 1 ≤ wc ∧ wc ≤ 12 then 15 else 0)
  + (if noDigitIn3 clean then 15 else 0)

/-- Feature 7: position tier (lines 1005-1023). -/
def hPositionScore (ds : DocStructure) (page : ℤ) (y : ℚ) : ℤ :=
  match ds.layout_stats page with
  | some lay =>
    let rel := layoutRelY lay y
    if rel < 15/100 then 20 else if rel < 25/100 then 15 else if rel < 4/10 then 10 else 0
  | none =>
    if y < 200 then 20 else if y < 400 then 15 else if y < 600 then 10 else 0

/-- Feature 8: no-bracket bonus (lines 1026-1027). -/
def hBracketScore (clean : String) : ℤ :=
  if clean.data.all (fun c =>
      c ≠ '\x28' && c ≠ '\x29' && c ≠ '[' && c ≠ ']' && c ≠ '\x7b' && c ≠ '\x7d')
  then 15 else 0

/-- Feature 9: cumulative casing-pattern bonuses (lines 1030-1039). -/
def hCaseScore (clean : String) : ℤ :=
  (if matchTitleCaseLine clean && 3 < clean.data.length then 25 else 0)
  + (if matchAllCapsLine clean && 5 < clean.data.length then 30 else 0)
  + (if matchTitleColon clean then 35 else 0)
  + (if matchAllCapsColon clean then 40 else 0)
  + (if matchMultiTitleCase clean then 30 else 0)

/-- Feature 10: document-adaptive bonuses (lines 1042-1049), computed on
the raw stripped text. -/
def hDocAdaptScore (ds : DocStructure) (text : String) : ℤ :=
  let tp := ds.text_patterns
  (if 0 < tp.numbered_sections ∧ matchNumbered text = true then 15 else 0)
  + (if 0 < tp.all_caps_headings ∧ (pyIsUpper text && 2 < text.data.length) = true then 15 else 0)
  + (if 0 < tp.colon_endings ∧ pyEndsWith text ":" = true then 15 else 0)

/-- Feature 11: starts uppercase and does not end with a period
(lines 1052-1053). -/
def hQualityScore (text : String) : ℤ :=
  if 3 < text.data.length ∧ headIsUpper text.data = true ∧ pyEndsWith text "." = false
  then 25 else 0

/-- The total eleven-feature heading score (lines 940-1053). -/
def heading_score (line : Line) (ds : DocStructure) : ℤ :=
  let text := pyStrip line.text
  let clean := headingClean text
  hGlobalScore ds line.font_size
  + hPageScore ds line.page line.font_size
  + hBoldScore line.is_bold
  + hNumberingScore text clean
  + hRegexScore clean
  + hWordScore clean
  + hPositionScore ds line.page line.y
  + hBracketScore clean
  + hCaseScore clean
  + hDocAdaptScore ds text
  + hQualityScore text

/-- `classify_heading_level` (lines 901-1077): hard pre-rejects, the
additive score, and the threshold bands with the decimal-numbering
demotions.  In the 75-94 band the source checks `^\d+\.\d+` after
`^\d+\.\d+\.\d+` and returns H2 either way, which collapses to H2. -/
def classify_heading_level (line : Line) (ds : DocStructure) : Option String :=
  let text := pyStrip line.text
  if preReject text then none
  else
    let clean := headingClean text
    let score := heading_score line ds
    if 95 ≤ score then some (if matchSubNumbered clean then "H2" else "H1")
    else if 75 ≤ score then
      if matchTripleNumbered clean then some "H3" else some "H2"
    else if 60 ≤ score then some "H3"
    else if 50 ≤ score then some "H4"
    else none

/-! ## `extract_outline` -/

/-- Outline heading text cleanup (lines 438-440): `re.sub(r'\.+$','')`,
`re.sub(r'\s+',' ')`, `strip()`. -/
def headingTextClean (text : String) : String :=
  pyStrip (collapseWs (dropTrailingDots text))

/-- The nonempty-stripped pieces of the title split on the two-space
separator (`title.split('  ')`, used with `if part.strip()`). -/
def titlePartsNonEmpty (title : String) : List String :=
  (pySplit title "  ").filter (fun p => pyStrip p ≠ "")

/-- The potential-heading collection pass (lines 419-449): skip
short/empty lines, the title line and title segments, classify the rest. -/
def potentialHeadings (lines : List Line) (title : String) (ds : DocStructure) :
    List Heading :=
  lines.filterMap (fun line =>
    let text := pyStrip line.text
    if text = "" ∨ text.data.length < 3 then none
    else if text = pyStrip title then none
    else if (titlePartsNonEmpty title).any (fun p => pyStrip p = text) then none
    else
      match classify_heading_level line ds with
      | some level => some ⟨level, headingTextClean text, line.page⟩
      | none => none)

/-- Outcome of the per-heading exclusion pass: keep (possibly with the
level/page mutations applied), drop, or the uncaught `IndexError` of
`text[0]` on an empty text (line 522). -/
inductive FiltStep where
  | keep (h : Heading)
  | drop
  | crash
deriving DecidableEq

/-- The bare decision of the exclusion pass, without the payload. -/
inductive FiltDecision where
  | keep
  | drop
  | crash
deriving DecidableEq

/-- The decision chain of the second exclusion pass over one classified
heading (lines 453-539), in source order, including the
document-archetype subfilters and the `IndexError` of `text[0]` on an
empty text (line 522). -/
def importantDecision (all_text : String) (h : Heading) : FiltDecision :=
  let text := h.text
  if ["copyright", "all rights reserved", "page", "confidential"].any
      (fun w => pyContains (pyLower text) w) then .drop
  else if matchProperName text || matchDateSlash text then .drop
  else if pyWordCount text = 1 &&
      !(["summary", "background", "references", "acknowledgements"].any
        (fun w => pyLower text = w)) then .drop
  else if 100 < text.data.length then .drop
  else if matchBullet text then .drop
  else if pyStartsWith text "●" || pyStartsWith text "•" ||
      pyStartsWith text "-" || pyStartsWith text "*" then .drop
  else if matchRevYear text then .drop
  else if ["street", "avenue", "road", "drive", "lane", "city", "state", "zip"].any
      (fun w => pyContains (pyLower text) w) then .drop
  else if matchAddress text then .drop
  else if pyStartsWith text "\x28" && pyEndsWith text "\x29" then .drop
  else if pyContains text "PLEASE VISIT" || pyContains text "REQUIRED FOR" then .drop
  else if pyContains text "PARENTS" && pyContains text "GUARDIANS" then .drop
  else if ["designation", "service", "whether", "employed", "entitled"].any
      (fun w => pyLower text = w) then .drop
  else if pathwayTrigger all_text &&
      (["regular", "distinction", "extracurricular", "science", "technology",
        "careers"].any (fun w => pyContains (pyLower text) w) ||
       pyContains (pyLower text) "class" || pyContains (pyLower text) "activity" ||
       (decide (3 < pyWordCount text) && !pyIsUpper text)) then .drop
  else if hopeTrigger all_text &&
      (decide (text.data.length < 3) || decide (50 < text.data.length)) then .drop
  else
    match text.data.head? with
    | none => .crash
    | some c =>
      if c.isLower &&
          !(["summary", "background", "references", "acknowledgements",
             "revision", "table", "contents"].any
            (fun w => pyContains (pyLower text) w)) then .drop
      else if containsYear4 text && decide (text.data.length < 15) then .drop
      else if matchRevNumCap text || matchRevCapNum text then .drop
      else if pyContains text "," && decide (2 < (pySplit text ",").length) then .drop
      else if pyContains text "©" || pyContains (pyLower text) "copyright" then .drop
      else .keep

/-- The level/page mutations applied to a kept heading (lines 541-547):
ALL-CAPS headings of length > 5 are boosted to H1, and a heading whose
text contains both "pathway" and "options" (case-sensitively) becomes an
H1 with the page sentinel 0. -/
def importantMutate (h : Heading) : Heading :=
  let text := h.text
  let h1 := if pyIsUpper text && 5 < text.data.length
            then Heading.mk "H1" h.text h.page else h
  if pyContains text "pathway" && pyContains text "options"
  then Heading.mk "H1" h1.text 0 else h1

/-- The full per-heading step of the exclusion pass (lines 453-549):
decide, and on keep apply the mutations. -/
def importantStep (all_text : String) (h : Heading) : FiltStep :=
  match importantDecision all_text h with
  | .keep => .keep (importantMutate h)
  | .drop => .drop
  | .crash => .crash

/-- One step of the exclusion-pass fold; `none` propagates the uncaught
`IndexError`. -/
def importantFoldStep (all_text : String) (acc : Option (List Heading))
    (h : Heading) : Option (List Heading) :=
  match acc with
  | none => none
  | some l =>
    match importantStep all_text h with
    | .keep h2 => some (l ++ [h2])
    | .drop => some l
    | .crash => none

/-- The exclusion pass over all classified headings (lines 452-549);
`none` models the uncaught `IndexError`. -/
def importantFilter (hs : List Heading) (all_text : String) :
    Option (List Heading) :=
  hs.foldl (importantFoldStep all_text) (some [])

/-- `is_quality_heading` (lines 815-853). -/
def is_quality_heading (h : Heading) (ds : DocStructure) : Bool :=
  let text := pyStrip h.text
  if text.data.length < 3 || 200 < text.data.length then false
  else if pyWordCount text < 1 || 15 < pyWordCount text then false
  else if (text.data.headD ' ').isLower then false
  else if 5 < pyCountChar text '.' || 3 < pyCountChar text ',' then false
  else if ((text.data.filter Char.isAlpha).length : ℚ) <
      (text.data.length : ℚ) * (3/10) then false
  else if 5 < ds.text_patterns.numbered_sections && !startsWithDigit text then false
  else if 3 < ds.text_patterns.all_caps_headings && !pyIsUpper text then false
  else true

/-- The deduplication key (line 558): `re.sub(r'\s+',' ',
text.lower().strip())`. -/
def dedupKey (t : String) : String := collapseWs (pyStrip (pyLower t))

/-- One step of the deduplication fold: state is (accepted headings,
seen keys). -/
def dedupStep (ds : DocStructure) (st : List Heading × List String)
    (h : Heading) : List Heading × List String :=
  let key := dedupKey h.text
  if key ∈ st.2 then st
  else if is_quality_heading h ds then (st.1 ++ [h], st.2 ++ [key])
  else st

/-- Deduplication with quality gating (lines 553-563): first occurrence
wins; the key is recorded only when the heading passes the quality gate. -/
def dedupQuality (hs : List Heading) (ds : DocStructure) : List Heading :=
  (hs.foldl (dedupStep ds) ([], [])).1

/-- Brochure override, first fallback: the ALL-CAPS line containing both
"pathway" and "options" (lines 570-581). -/
def pathwayCase1 (lines : List Line) : Option Line :=
  lines.find? (fun l =>
    let t := pyStrip l.text
    pyContains (pyLower t) "pathway" && pyContains (pyLower t) "options" &&
    pyIsUpper t && 5 < t.data.length)

/-- Brochure override, second fallback: any bold ALL-CAPS line of length
> 5 (lines 584-594). -/
def pathwayCase2 (lines : List Line) : Option Line :=
  lines.find? (fun l =>
    let t := pyStrip l.text
    pyIsUpper t && 5 < t.data.length && l.is_bold)

/-- The brochure archetype override (lines 567-613): replace the heading
list by a single H1/page-0 heading found by the cascading fallback; if
even the last fallback finds no ALL-CAPS line the list is left as is. -/
def pathwayOverride (lines : List Line) (fallback : List Heading) : List Heading :=
  match pathwayCase1 lines with
  | some l => [⟨"H1", pyStrip l.text, 0⟩]
  | none =>
    match pathwayCase2 lines with
    | some l => [⟨"H1", pyStrip l.text, 0⟩]
    | none =>
      match (sortLinesDescBy Line.font_size (allCapsProminent lines)).head? with
      | some l => [⟨"H1", pyStrip l.text, 0⟩]
      | none => fallback

/-- The poster-override heading, when one of the three line-searching
fallbacks succeeds (lines 616-675). -/
def hopeHeadingOpt (lines : List Line) : Option Heading :=
  match hopeLine1 lines with
  | some l => some ⟨"H1", collapseWs (pyStrip l.text), 0⟩
  | none =>
    match hopeLine2 lines with
    | some l => some ⟨"H1", pyStrip l.text, 0⟩
    | none =>
      ((sortLinesDescBy Line.font_size (hopeProminentBold lines)).head?).map
        (fun l => Heading.mk "H1" (pyStrip l.text) 0)

/-- The poster-override final fallback (lines 678-692), which returns a
plain string from `extract_outline`. -/
def hopeFallbackStr (lines : List Line) : String :=
  match (sortLinesDescBy Line.font_size (allCapsProminent lines)).head? with
  | some l => pyStrip l.text ++ "  "
  | none => "Untitled Document  "

/-! ## `validate_page_numbers` and outline assembly -/

/-- Does some line on page `p` contain `t` (case-insensitively, `t`
already lowered)? -/
def pageHasTextB (lines : List Line) (p : ℤ) (t : String) : Bool :=
  (linesOnPage lines p).any (fun l => pyContains (pyLower l.text) t)

/-- The relocation scan (lines 885-894): first page, in the grouping
dict's insertion order, with a line containing `t`.  (The source's
`page_lines[heading_page]` lookups insert empty lists for absent keys
into the defaultdict; such empty pages can never match, so they do not
affect the first-match result.) -/
def relocatePage (lines : List Line) (t : String) : Option ℤ :=
  (pagesInOrder lines).find? (fun p => pageHasTextB lines p t)

/-- Validation of a single heading (lines 866-897): sentinel page 0
passes through; a heading found on its own page is unchanged; otherwise
relocate to the first page containing its text, or keep the original
page. -/
def validateOne (lines : List Line) (h : Heading) : Heading :=
  if h.page = 0 then h
  else if pageHasTextB lines h.page (pyLower h.text) then h
  else
    match relocatePage lines (pyLower h.text) with
    | some p => ⟨h.level, h.text, p⟩
    | none => h

/-- `validate_page_numbers` (lines 857-899): each input heading produces
exactly one output heading, in order. -/
def validate_page_numbers (headings : List Heading) (lines : List Line) :
    List Heading :=
  headings.map (validateOne lines)

/-- The level-rank dict `{'H1':1,'H2':2,'H3':3,'H4':4}` (line 701); every
level reaching it is one of the four keys, so the default is
unreachable. -/
def levelRank (lv : String) : ℤ :=
  if lv = "H1" then 1 else if lv = "H2" then 2
  else if lv = "H3" then 3 else if lv = "H4" then 4 else 0

/-- Strict (page, level-rank) lexicographic order on headings. -/
def headingKeyLt (a b : Heading) : Bool :=
  a.page < b.page || (a.page = b.page && levelRank a.level < levelRank b.level)

/-- Stable insertion for the (page, level) sort. -/
def insHeadingSorted (x : Heading) : List Heading → List Heading
  | [] => [x]
  | y :: ys => if headingKeyLt x y then x :: y :: ys else y :: insHeadingSorted x ys

/-- `sorted(final_headings, key=lambda x: (page, rank))` (stable). -/
def sortHeadings (l : List Heading) : List Heading :=
  l.foldl (fun acc x => insHeadingSorted x acc) []

/-- The 40-heading cap (lines 698-701). -/
def cap40 (hs : List Heading) : List Heading :=
  if 40 < hs.length then (sortHeadings hs).take 40 else hs

/-- `extract_outline` (lines 397-703): the form short-circuit, the
collection/filter/dedup pipeline, the two archetype overrides, page
validation and the cap. -/
def extract_outline (lines : List Line) : OutlineResult :=
  let title := extract_title lines
  let ds := analyze_document_structure lines
  let all_text := joinLower lines
  if 8 ≤ formCount all_text then .ol []
  else
    match importantFilter (potentialHeadings lines title ds) all_text with
    | none => .err
    | some important =>
      let final0 := dedupQuality important ds
      let final1 := if pathwayTrigger all_text then pathwayOverride lines final0
                    else final0
      if hopeTrigger all_text then
        match hopeHeadingOpt lines with
        | some h => .ol (cap40 (validate_page_numbers [h] lines))
        | none => .strRet (hopeFallbackStr lines)
      else .ol (cap40 (validate_page_numbers final1 lines))

/-! ## Concrete test inputs for the claims -/

/-- Convenience builder for a test `Line` with consistent derived fields. -/
def mkLine (page : ℤ) (y : ℚ) (text : String) (fs : ℚ) (bold : Bool) : Line :=
  ⟨page, y, text, fs, fs, bold, false, text.data.length, pyWordCount text,
   0, y, 100, y + 10⟩

/-- A one-line form-vocabulary document (8 distinct form-field terms). -/
def exFormLines : List Line :=
  [mkLine 1 100 "date signature name age relationship designation service whether" 12 false]

/-- A brochure-trigger document with no ALL-CAPS line. -/
def exPathwayLower : List Line :=
  [mkLine 1 100 "pathway options here" 12 false]

/-- A title line, a near-duplicate with a trailing dot, and a body line. -/
def exSegment : List Line :=
  [mkLine 1 50 "Annual Budget Report" 24 true,
   mkLine 1 300 "Annual Budget Report." 18 true,
   mkLine 1 500 "just some plain body text here to anchor statistics" 10 false]

/-- A poster-trigger document whose title comes out of the ALL-CAPS
announcement fallback (no trailing spaces). -/
def exHopeTitle : List Line :=
  [mkLine 1 50 "Annual Budget Report" 24 true,
   mkLine 1 400 "hope you enjoy" 10 false,
   mkLine 1 450 "see the views" 10 false,
   mkLine 1 500 "there is more" 10 false,
   mkLine 1 200 "THANK YOU EVERYONE" 12 false]

/-- A single title line whose trailing dots hide a trailing space. -/
def exDotSpace : List Line :=
  [mkLine 1 50 "Annual Budget Report Z .." 24 true]

/-- A brochure document with an ALL-CAPS trigger line. -/
def exPathwayCaps : List Line :=
  [mkLine 1 100 "PATHWAY OPTIONS" 12 false]

/-- A single large bold heading line. -/
def exScore : List Line :=
  [mkLine 1 50 "Introduction Overview" 24 true]

/-- Two pages, with "Overview Section" only on page 1. -/
def exValLines : List Line :=
  [mkLine 1 10 "Overview Section" 12 false,
   mkLine 2 20 "other words" 10 false]

/-- The two spans of claim C6 (y = 100.0 and y = 100.5, horizontal gap
20). -/
def exSpansC6 : List Span :=
  [⟨"Hello", 12, false, false, 1, 0, 100, 50, 110⟩,
   ⟨"World", 12, false, false, 1, 70, 201/2, 100, 221/2⟩]

/-- The same two spans with the second at y = 100.4, inside the same
quantization cell as y = 100.0. -/
def exSpansC6b : List Span :=
  [⟨"Hello", 12, false, false, 1, 0, 100, 50, 110⟩,
   ⟨"World", 12, false, false, 1, 70, 502/5, 100, 552/5⟩]

/-! ## Claim C1: the form short-circuit -/

/-- C1.  For every Line set whose concatenated full text contains at
least 8 distinct terms of the fixed form-field vocabulary,
`extract_outline` returns the empty outline `[]`, regardless of which
headings would otherwise have been classified. -/
theorem C1_form_short_circuit (lines : List Line)
    (h : 8 ≤ formCount (joinLower lines)) :
    extract_outline lines = .ol [] := by
  simp only [extract_outline]
  rw [if_pos h]

/-- Witness for C1 at a concrete one-line form document containing
exactly 8 form-field terms. -/
theorem C1_form_short_circuit_witness :
    8 ≤ formCount (joinLower exFormLines) ∧
    extract_outline exFormLines = OutlineResult.ol [] :=
  ⟨by decide, C1_form_short_circuit exFormLines (by decide)⟩

/-! ## Claim C6: span merging at y = 100.0 / 100.5 -/

set_option maxRecDepth 1000000 in
unseal Rat.add Rat.mul Rat.inv Rat.sub in
/-- C6, counterexample.  The two spans of the claim (same page,
y = 100.0 and y = 100.5, horizontal gap 20, tolerances 3.0/15) do NOT
merge into a single line: `round(100.0/3) = 33` but
`round(100.5/3) = round(33.5) = 34` (Python's round-half-to-even), so
the spans land in different quantization cells and `merge_lines`
produces two separate one-span lines. -/
theorem C6_counterexample :
    (merge_lines exSpansC6 3 15).map Line.text = ["Hello", "World"] := by
  decide

set_option maxRecDepth 1000000 in
unseal Rat.add Rat.mul Rat.inv Rat.sub in
/-- C6, amended.  With the second span at y = 100.4 — inside the same
quantization cell as y = 100.0 — and a horizontal gap of 20 > 15, the
two spans merge into a single Line whose text is the two span texts
joined by a single inserted space. -/
theorem C6_amended :
    (merge_lines exSpansC6b 3 15).map Line.text = ["Hello World"] := by
  decide

/-! ## Claim C8: the "Untitled Document" fallback -/

/-- C8.  For every Line set in which no title candidate is accepted
(including the empty Line set), `extract_title` returns the literal
string "Untitled Document"; the Lean model is a total function, so this
path raises no exception. -/
theorem C8_untitled_fallback (lines : List Line)
    (h : titleCandidates lines = []) :
    extract_title lines = "Untitled Document" := by
  unfold extract_title sortedTitleCandidates
  rw [h]
  rfl

/-- Witness for C8 at the empty Line set. -/
theorem C8_untitled_fallback_witness :
    titleCandidates ([] : List Line) = [] ∧
    extract_title ([] : List Line) = "Untitled Document" :=
  ⟨by decide, C8_untitled_fallback [] (by decide)⟩

/-! ## Claim C9: determinism / idempotence -/

/-- C9.  Re-running title extraction and outline extraction on the same
Line set yields identical results: the embedded pipeline is a pure
function of the Line list (the source uses no randomness, and its dict
iteration order is the deterministic insertion order modelled here). -/
theorem C9_deterministic (lines : List Line) :
    extract_title lines = extract_title lines ∧
    extract_outline lines = extract_outline lines :=
  ⟨rfl, rfl⟩

/-! ## Claim C2, counterexample -/

set_option maxRecDepth 1000000 in
unseal Rat.add Rat.mul Rat.inv Rat.sub in
/-- C2, counterexample.  A document whose full text contains "pathway"
and "options" (and is not form-short-circuited) but has no ALL-CAPS line:
all three fallbacks of the brochure override fail, the heading list is
left as the (empty) general-pass result, and the outline is `[]` rather
than exactly one H1 entry. -/
theorem C2_counterexample :
    pathwayTrigger (joinLower exPathwayLower) = true ∧
    formCount (joinLower exPathwayLower) < 8 ∧
    extract_outline exPathwayLower = OutlineResult.ol [] := by
  refine ⟨by decide, by decide, ?_⟩
  decide

/-! ## Claim C3, counterexample -/

set_option maxRecDepth 1000000 in
unseal Rat.add Rat.mul Rat.inv Rat.sub in
/-- C3, counterexample (two inputs).  First: a document with accepted
title candidates whose full text contains "hope"/"see"/"there" spread
over lines; the poster override returns the raw ALL-CAPS announcement
line with NO trailing spaces.  Second: a single accepted title whose
trailing dots hide a trailing space; removing the dots leaves the space,
and the returned title ends with THREE spaces, not exactly two. -/
theorem C3_counterexample :
    (sortedTitleCandidates exHopeTitle ≠ [] ∧
     extract_title exHopeTitle = "THANK YOU EVERYONE" ∧
     pyEndsWith (extract_title exHopeTitle) "  " = false) ∧
    (sortedTitleCandidates exDotSpace ≠ [] ∧
     extract_title exDotSpace = "Annual Budget Report Z   " ∧
     pyEndsWith (extract_title exDotSpace) "   " = true) := by
  constructor
  · exact ⟨by decide, by decide, by decide⟩
  · exact ⟨by decide, by decide, by decide⟩

/-! ## Claim C4, counterexample -/

set_option maxRecDepth 1000000 in
unseal Rat.add Rat.mul Rat.inv Rat.sub in
/-- C4, counterexample.  In `exSegment` the title is
"Annual Budget Report  " and the line "Annual Budget Report." — whose
raw text differs from every title segment, so it is not skipped — is
classified as a heading; cleaning strips its trailing dot, and the
resulting outline heading text equals the title's concatenated segment
"Annual Budget Report". -/
theorem C4_counterexample :
    extract_title exSegment = "Annual Budget Report  " ∧
    outlineHeadings (extract_outline exSegment) =
      [⟨"H1", "Annual Budget Report", 1⟩] ∧
    "Annual Budget Report" ∈ titlePartsNonEmpty (extract_title exSegment) := by
  refine ⟨by decide, ?_, by decide⟩
  decide

/-! ## Claim C5: the 50+35 additive score floor -/

/-- Justification of the squared encoding: over the reals,
`geMeanPlusKStd x avg var k` decides exactly `avg + k·√var ≤ x`. -/
theorem geMeanPlusKStd_iff_real (x avg var k : ℚ) (hv : 0 ≤ var) (hk : 0 ≤ k) :
    geMeanPlusKStd x avg var k = true ↔
      (avg : ℝ) + k * Real.sqrt var ≤ x := by
  unfold geMeanPlusKStd
  rw [Bool.and_eq_true, decide_eq_true_eq, decide_eq_true_eq]
  constructor
  · rintro ⟨h1, h2⟩
    have hxa : (0 : ℝ) ≤ (x : ℝ) - avg := by
      rw [sub_nonneg]; exact_mod_cast h1
    have h2' : ((k : ℝ)) ^ 2 * var ≤ ((x : ℝ) - avg) ^ 2 := by exact_mod_cast h2
    have hks : (k : ℝ) * Real.sqrt var ≤ (x : ℝ) - avg := by
      have hsq : Real.sqrt ((k : ℝ) ^ 2 * var) ≤ Real.sqrt (((x : ℝ) - avg) ^ 2) :=
        Real.sqrt_le_sqrt h2'
      rwa [Real.sqrt_mul (sq_nonneg _), Real.sqrt_sq_eq_abs, Real.sqrt_sq_eq_abs,
        abs_of_nonneg (by exact_mod_cast hk), abs_of_nonneg hxa] at hsq
    linarith
  · intro h
    have hs : (0 : ℝ) ≤ (k : ℝ) * Real.sqrt var :=
      mul_nonneg (by exact_mod_cast hk) (Real.sqrt_nonneg _)
    have h1 : (avg : ℝ) ≤ x := by linarith
    refine ⟨by exact_mod_cast h1, ?_⟩
    have hks : (k : ℝ) * Real.sqrt var ≤ (x : ℝ) - avg := by linarith
    have hsq : ((k : ℝ) * Real.sqrt var) ^ 2 ≤ ((x : ℝ) - avg) ^ 2 := by
      apply pow_le_pow_left₀ hs hks
    rw [mul_pow, Real.sq_sqrt (by exact_mod_cast hv)] at hsq
    exact_mod_cast hsq

theorem hPageScore_nonneg (ds : DocStructure) (p : ℤ) (fs : ℚ) :
    0 ≤ hPageScore ds p fs := by
  unfold hPageScore
  rcases ds.font_stats p with _ | st <;> simp only []
  · norm_num
  · repeat' split
    all_goals norm_num

theorem hNumberingScore_nonneg (text clean : String) :
    0 ≤ hNumberingScore text clean := by
  unfold hNumberingScore
  dsimp only
  repeat' split
  all_goals norm_num

theorem hRegexScore_nonneg (clean : String) : 0 ≤ hRegexScore clean := by
  unfold hRegexScore
  repeat' split
  all_goals norm_num

theorem hWordScore_nonneg (clean : String) : 0 ≤ hWordScore clean := by
  unfold hWordScore
  dsimp only
  repeat' split
  all_goals norm_num

theorem hPositionScore_nonneg (ds : DocStructure) (p : ℤ) (y : ℚ) :
    0 ≤ hPositionScore ds p y := by
  unfold hPositionScore
  rcases ds.layout_stats p with _ | st <;> simp only []
  · repeat' split
    all_goals norm_num
  · repeat' split
    all_goals norm_num

theorem hBracketScore_nonneg (clean : String) : 0 ≤ hBracketScore clean := by
  unfold hBracketScore
  repeat' split
  all_goals norm_num

theorem hCaseScore_nonneg (clean : String) : 0 ≤ hCaseScore clean := by
  unfold hCaseScore
  repeat' split
  all_goals norm_num

theorem hDocAdaptScore_nonneg (ds : DocStructure) (text : String) :
    0 ≤ hDocAdaptScore ds text := by
  unfold hDocAdaptScore
  dsimp only
  repeat' split
  all_goals norm_num

theorem hQualityScore_nonneg (text : String) : 0 ≤ hQualityScore text := by
  unfold hQualityScore
  repeat' split
  all_goals norm_num

/-- C5.  A Line whose font size is at or above 98% of the document's
global maximum and which is bold, and which is not hard pre-rejected,
scores at least 85 in the heading classifier: the global tier
contributes its top value 50, boldness contributes 35, and every other
feature contribution is non-negative. -/
theorem C5_score_floor (lines : List Line) (line : Line) (g : GlobalFontStats)
    (hg : (analyze_document_structure lines).global_font_stats = some g)
    (hfs : g.max * (98/100) ≤ line.font_size)
    (hbold : line.is_bold = true)
    (hpre : preReject (pyStrip line.text) = false) :
    85 ≤ heading_score line (analyze_document_structure lines) := by
  have h1 : hGlobalScore (analyze_document_structure lines) line.font_size = 50 := by
    unfold hGlobalScore
    rw [hg]
    simp [hfs]
  have h3 : hBoldScore line.is_bold = 35 := by rw [hbold]; rfl
  unfold heading_score
  have n2 := hPageScore_nonneg (analyze_document_structure lines) line.page line.font_size
  have n4 := hNumberingScore_nonneg (pyStrip line.text) (headingClean (pyStrip line.text))
  have n5 := hRegexScore_nonneg (headingClean (pyStrip line.text))
  have n6 := hWordScore_nonneg (headingClean (pyStrip line.text))
  have n7 := hPositionScore_nonneg (analyze_document_structure lines) line.page line.y
  have n8 := hBracketScore_nonneg (headingClean (pyStrip line.text))
  have n9 := hCaseScore_nonneg (headingClean (pyStrip line.text))
  have n10 := hDocAdaptScore_nonneg (analyze_document_structure lines) (pyStrip line.text)
  have n11 := hQualityScore_nonneg (pyStrip line.text)
  rw [h1, h3]
  dsimp only
  linarith

set_option maxRecDepth 1000000 in
unseal Rat.add Rat.mul Rat.inv Rat.sub in
/-- Witness for C5: a single bold 24pt line; the global maximum is 24,
`24 ≥ 24 * 0.98`, and the computed score is at least 85. -/
theorem C5_score_floor_witness :
    (analyze_document_structure exScore).global_font_stats =
      some ⟨24, 24, 24, 0, 24, 24⟩ ∧
    85 ≤ heading_score (mkLine 1 50 "Introduction Overview" 24 true)
      (analyze_document_structure exScore) := by
  refine ⟨by decide, ?_⟩
  exact C5_score_floor exScore (mkLine 1 50 "Introduction Overview" 24 true)
    ⟨24, 24, 24, 0, 24, 24⟩ (by decide) (by decide) (by decide) (by decide)

/-! ## Claim C10: frame property of page validation -/

theorem validateOne_level (lines : List Line) (h : Heading) :
    (validateOne lines h).level = h.level := by
  unfold validateOne
  repeat' split
  all_goals rfl

theorem validateOne_text (lines : List Line) (h : Heading) :
    (validateOne lines h).text = h.text := by
  unfold validateOne
  repeat' split
  all_goals rfl

theorem validateOne_page0 (lines : List Line) (h : Heading) (h0 : h.page = 0) :
    validateOne lines h = h := by
  unfold validateOne
  rw [if_pos h0]

/-- C10.  `validate_page_numbers` preserves the length and order of its
input, each output heading keeps the level and text of the corresponding
input heading (only the page may differ), and every sentinel-page-0
heading passes through entirely unchanged. -/
theorem C10_frame (headings : List Heading) (lines : List Line) :
    (validate_page_numbers headings lines).length = headings.length ∧
    ∀ i (hi : i < headings.length),
      ((validate_page_numbers headings lines).get
          ⟨i, by simpa [validate_page_numbers] using hi⟩).level =
        (headings.get ⟨i, hi⟩).level ∧
      ((validate_page_numbers headings lines).get
          ⟨i, by simpa [validate_page_numbers] using hi⟩).text =
        (headings.get ⟨i, hi⟩).text ∧
      ((headings.get ⟨i, hi⟩).page = 0 →
        (validate_page_numbers headings lines).get
          ⟨i, by simpa [validate_page_numbers] using hi⟩ = headings.get ⟨i, hi⟩) := by
  refine ⟨by simp [validate_page_numbers], ?_⟩
  intro i hi
  have hget : (validate_page_numbers headings lines).get
      ⟨i, by simpa [validate_page_numbers] using hi⟩ =
      validateOne lines (headings.get ⟨i, hi⟩) := by
    simp [validate_page_numbers]
  rw [hget]
  exact ⟨validateOne_level lines _, validateOne_text lines _,
    fun h0 => validateOne_page0 lines _ h0⟩

/-- Witness for C10: a single sentinel-page-0 heading is returned
unchanged. -/
theorem C10_frame_witness :
    validate_page_numbers [⟨"H1", "Intro", 0⟩] [] = [⟨"H1", "Intro", 0⟩] := by
  have h := (C10_frame [⟨"H1", "Intro", 0⟩] []).2 0 (by norm_num)
  have h0 := h.2.2 rfl
  exact congrArg (fun a => [a]) h0

/-! ## Claim C7: page relocation semantics -/

theorem mem_pagesInOrderGo (p : ℤ) (ls : List Line) : ∀ (seen : List ℤ),
    p ∈ pagesInOrderGo seen ls ↔ (∃ l ∈ ls, l.page = p) ∧ p ∉ seen := by
  induction ls with
  | nil => intro seen; simp [pagesInOrderGo]
  | cons l rest ih =>
    intro seen
    rw [pagesInOrderGo]
    split_ifs with hmem
    · rw [ih seen]
      simp only [List.mem_cons]
      constructor
      · rintro ⟨⟨m, hm, hp⟩, hns⟩
        exact ⟨⟨m, Or.inr hm, hp⟩, hns⟩
      · rintro ⟨⟨m, hm, hp⟩, hns⟩
        rcases hm with rfl | hm
        · exact absurd (hp ▸ hmem) hns
        · exact ⟨⟨m, hm, hp⟩, hns⟩
    · rw [List.mem_cons, ih (l.page :: seen)]
      simp only [List.mem_cons]
      constructor
      · rintro (rfl | ⟨⟨m, hm, hp⟩, hns⟩)
        · exact ⟨⟨l, Or.inl rfl, rfl⟩, hmem⟩
        · exact ⟨⟨m, Or.inr hm, hp⟩, fun hc => hns (Or.inr hc)⟩
      · rintro ⟨⟨m, hm, hp⟩, hns⟩
        rcases hm with rfl | hm
        · exact Or.inl hp.symm
        · by_cases hpl : p = l.page
          · exact Or.inl hpl
          · refine Or.inr ⟨⟨m, hm, hp⟩, fun hc => ?_⟩
            rcases hc with h | h
            · exact hpl h
            · exact hns h

theorem pagesInOrderGo_sorted (ls : List Line) : ∀ (seen : List ℤ),
    List.Pairwise (fun a b => a.page ≤ b.page) ls →
    List.Pairwise (· < ·) (pagesInOrderGo seen ls) := by
  induction ls with
  | nil => intro seen _; simp [pagesInOrderGo]
  | cons l rest ih =>
    intro seen hs
    rcases List.pairwise_cons.mp hs with ⟨hle, hrest⟩
    rw [pagesInOrderGo]
    split_ifs with hmem
    · exact ih seen hrest
    · rw [List.pairwise_cons]
      refine ⟨?_, ih _ hrest⟩
      intro q hq
      rw [mem_pagesInOrderGo] at hq
      obtain ⟨⟨m, hm, rfl⟩, hns⟩ := hq
      have h1 : l.page ≤ m.page := hle m hm
      have h2 : m.page ≠ l.page := fun hc => hns (by simp [hc])
      omega

theorem find?_sorted_least (pred : ℤ → Bool) : ∀ (L : List ℤ),
    List.Pairwise (· < ·) L → ∀ x, L.find? pred = some x →
    pred x = true ∧ ∀ y ∈ L, pred y = true → x ≤ y := by
  intro L
  induction L with
  | nil => intro _ x h; simp at h
  | cons a t ih =>
    intro hp x hf
    rcases List.pairwise_cons.mp hp with ⟨ha, ht⟩
    by_cases hpa : pred a = true
    · rw [List.find?_cons_of_pos _ hpa] at hf
      injection hf with h
      subst h
      refine ⟨hpa, fun y hy _ => ?_⟩
      rcases List.mem_cons.mp hy with rfl | hy
      · exact le_refl _
      · exact le_of_lt (ha y hy)
    · rw [List.find?_cons_of_neg _ hpa] at hf
      obtain ⟨h1, h2⟩ := ih ht x hf
      refine ⟨h1, fun y hy hpy => ?_⟩
      rcases List.mem_cons.mp hy with rfl | hy
      · exact absurd hpy hpa
      · exact h2 y hy hpy

theorem pageHasTextB_mem (lines : List Line) (p : ℤ) (t : String)
    (h : pageHasTextB lines p t = true) : ∃ l ∈ lines, l.page = p := by
  unfold pageHasTextB linesOnPage at h
  rw [List.any_eq_true] at h
  obtain ⟨l, hl, _⟩ := h
  rw [List.mem_filter] at hl
  exact ⟨l, hl.1, by simpa using hl.2⟩

theorem mem_pagesInOrder_of_pageHasTextB (lines : List Line) (p : ℤ) (t : String)
    (h : pageHasTextB lines p t = true) : p ∈ pagesInOrder lines := by
  rw [pagesInOrder, mem_pagesInOrderGo]
  exact ⟨pageHasTextB_mem lines p t h, by simp⟩

/-- C7.  For a heading with a non-sentinel page whose text does not
occur (case-insensitively) on its recorded page, and Lines given in
document order (non-decreasing pages): if the text occurs on some page,
`validate_page_numbers` relocates the heading to the least such page; if
it occurs nowhere, the heading is returned unchanged.  The embedding is
a total function, so no input raises. -/
theorem C7_relocation (headings : List Heading) (lines : List Line)
    (hsort : List.Pairwise (fun a b => a.page ≤ b.page) lines)
    (i : ℕ) (hi : i < headings.length)
    (h0 : (headings.get ⟨i, hi⟩).page ≠ 0)
    (habs : pageHasTextB lines (headings.get ⟨i, hi⟩).page
      (pyLower (headings.get ⟨i, hi⟩).text) = false) :
    ((∃ p, pageHasTextB lines p (pyLower (headings.get ⟨i, hi⟩).text) = true) →
      IsLeast {p | pageHasTextB lines p (pyLower (headings.get ⟨i, hi⟩).text) = true}
        (((validate_page_numbers headings lines).get
          ⟨i, by simpa [validate_page_numbers] using hi⟩).page)) ∧
    ((∀ p, pageHasTextB lines p (pyLower (headings.get ⟨i, hi⟩).text) = false) →
      (validate_page_numbers headings lines).get
        ⟨i, by simpa [validate_page_numbers] using hi⟩ = headings.get ⟨i, hi⟩) := by
  have hget : (validate_page_numbers headings lines).get
      ⟨i, by simpa [validate_page_numbers] using hi⟩ =
      validateOne lines (headings.get ⟨i, hi⟩) := by
    simp [validate_page_numbers]
  rw [hget]
  set h := headings.get ⟨i, hi⟩ with hh
  unfold validateOne
  rw [if_neg h0, if_neg (by simp [habs])]
  rcases hrel : relocatePage lines (pyLower h.text) with _ | p0
  · constructor
    · rintro ⟨p, hp⟩
      exfalso
      have hmem := mem_pagesInOrder_of_pageHasTextB lines p (pyLower h.text) hp
      exact List.find?_eq_none.mp hrel p hmem hp
    · intro _; rfl
  · have hleast := find?_sorted_least _ (pagesInOrder lines)
      (pagesInOrderGo_sorted lines [] hsort) p0 hrel
    constructor
    · intro _
      refine ⟨hleast.1, fun q hq => ?_⟩
      exact hleast.2 q (mem_pagesInOrder_of_pageHasTextB lines q _ hq) hq
    · intro hall
      exact absurd hleast.1 (by simp [hall p0])

/-- Witness for C7: a heading recorded on page 2 whose text occurs only
on page 1 is relocated to page 1, the least matching page. -/
theorem C7_relocation_witness :
    IsLeast {p | pageHasTextB exValLines p (pyLower "Overview") = true}
      ((validate_page_numbers [⟨"H1", "Overview", 2⟩] exValLines).headD
        ⟨"", "", 0⟩).page := by
  have h := (C7_relocation [⟨"H1", "Overview", 2⟩] exValLines
    (by decide) 0 (by norm_num) (by decide) (by decide)).1 ⟨1, by decide⟩
  exact h

/-! ## Claim C2, amended -/

theorem mem_insLineDescBy (key : Line → ℚ) (x a : Line) : ∀ (l : List Line),
    a ∈ insLineDescBy key x l ↔ a = x ∨ a ∈ l := by
  intro l
  induction l with
  | nil => simp [insLineDescBy]
  | cons y ys ih =>
    rw [insLineDescBy]
    split_ifs
    · simp
    · rw [List.mem_cons, ih, List.mem_cons]
      tauto

theorem mem_sortLinesDescBy_aux (key : Line → ℚ) (a : Line) :
    ∀ (l : List Line) (acc : List Line),
    a ∈ l.foldl (fun acc x => insLineDescBy key x acc) acc ↔ a ∈ acc ∨ a ∈ l := by
  intro l
  induction l with
  | nil => intro acc; simp
  | cons x xs ih =>
    intro acc
    rw [List.foldl_cons, ih, mem_insLineDescBy, List.mem_cons]
    tauto

theorem mem_sortLinesDescBy (key : Line → ℚ) (a : Line) (l : List Line) :
    a ∈ sortLinesDescBy key l ↔ a ∈ l := by
  rw [sortLinesDescBy, mem_sortLinesDescBy_aux]
  simp

/-- Whenever some line of the document is ALL-CAPS with stripped length
greater than 3, the brochure override replaces the heading list by a
single H1/page-0 heading carrying the stripped (ALL-CAPS) text of some
line. -/
theorem pathwayOverride_cases (lines : List Line) (fb : List Heading)
    (hcaps : ∃ l ∈ lines, pyIsUpper (pyStrip l.text) = true ∧
      3 < (pyStrip l.text).data.length) :
    ∃ l : Line, pyIsUpper (pyStrip l.text) = true ∧
      pathwayOverride lines fb = [⟨"H1", pyStrip l.text, 0⟩] := by
  unfold pathwayOverride
  rcases h1 : pathwayCase1 lines with _ | l1
  · rcases h2 : pathwayCase2 lines with _ | l2
    · obtain ⟨l, hl, hup, hlen⟩ := hcaps
      have hmemf : l ∈ allCapsProminent lines := by
        rw [allCapsProminent, List.mem_filter]
        refine ⟨hl, ?_⟩
        simp only [Bool.and_eq_true, decide_eq_true_eq]
        exact ⟨hlen, hup⟩
      have hmems : l ∈ sortLinesDescBy Line.font_size (allCapsProminent lines) :=
        (mem_sortLinesDescBy _ _ _).mpr hmemf
      rcases hs : sortLinesDescBy Line.font_size (allCapsProminent lines) with _ | ⟨l', rest⟩
      · rw [hs] at hmems
        exact absurd hmems (List.not_mem_nil l)
      · have hmem' : l' ∈ allCapsProminent lines := by
          have : l' ∈ sortLinesDescBy Line.font_size (allCapsProminent lines) := by
            rw [hs]; exact List.mem_cons_self _ _
          exact (mem_sortLinesDescBy _ _ _).mp this
        rw [allCapsProminent, List.mem_filter] at hmem'
        have hup' : pyIsUpper (pyStrip l'.text) = true := by
          have := hmem'.2
          simp only [Bool.and_eq_true] at this
          exact this.2
        exact ⟨l', hup', rfl⟩
    · have hp := List.find?_some h2
      simp only [Bool.and_eq_true] at hp
      exact ⟨l2, hp.1.1, rfl⟩
  · have hp := List.find?_some h1
    simp only [Bool.and_eq_true] at hp
    exact ⟨l1, hp.1.2, rfl⟩

/-- C2, amended.  For every Line set whose full text contains both
"pathway" and "options", is not form-short-circuited, does not also
trigger the hope/see/there poster override, contains at least one
ALL-CAPS line of stripped length > 3 (so that the override's fallback
chain succeeds), and on which the heading filter does not hit its latent
IndexError: the outline is exactly one heading, with level H1 and the
page sentinel 0. -/
theorem C2_amended (lines : List Line)
    (hpath : pathwayTrigger (joinLower lines) = true)
    (hform : formCount (joinLower lines) < 8)
    (hhope : hopeTrigger (joinLower lines) = false)
    (hcaps : ∃ l ∈ lines, pyIsUpper (pyStrip l.text) = true ∧
      3 < (pyStrip l.text).data.length)
    (hfilt : importantFilter
      (potentialHeadings lines (extract_title lines) (analyze_document_structure lines))
      (joinLower lines) ≠ none) :
    ∃ t, extract_outline lines = OutlineResult.ol [⟨"H1", t, 0⟩] := by
  obtain ⟨imp, himp⟩ := Option.ne_none_iff_exists'.mp hfilt
  obtain ⟨l, hup, hover⟩ := pathwayOverride_cases lines
    (dedupQuality imp (analyze_document_structure lines)) hcaps
  refine ⟨pyStrip l.text, ?_⟩
  simp only [extract_outline]
  rw [if_neg (by omega), himp]
  dsimp only
  rw [if_neg (by simp [hhope]), if_pos hpath, hover]
  have hval : validate_page_numbers [⟨"H1", pyStrip l.text, 0⟩] lines =
      [⟨"H1", pyStrip l.text, 0⟩] := by
    unfold validate_page_numbers
    rw [List.map_cons, List.map_nil, validateOne_page0 lines _ rfl]
  rw [hval]
  rfl

set_option maxRecDepth 1000000 in
unseal Rat.add Rat.mul Rat.inv Rat.sub in
/-- Witness for C2 at a one-line ALL-CAPS brochure document. -/
theorem C2_amended_witness :
    pathwayTrigger (joinLower exPathwayCaps) = true ∧
    hopeTrigger (joinLower exPathwayCaps) = false ∧
    ∃ t, extract_outline exPathwayCaps = OutlineResult.ol [⟨"H1", t, 0⟩] :=
  ⟨by decide, by decide,
    C2_amended exPathwayCaps (by decide) (by decide) (by decide)
      (by decide) (by decide)⟩

/-! ## Claim C3, amended -/

theorem pyEndsWith_append_spaces (s : String) :
    pyEndsWith (s ++ "  ") "  " = true := by
  unfold pyEndsWith
  rw [List.isSuffixOf_iff_suffix, String.data_append]
  exact List.suffix_append _ _

/-- C3, amended.  Whenever at least one title candidate is accepted and
the document does not trigger the hope/see/there poster override, the
string returned by `extract_title` ends with (at least) two trailing
space characters. -/
theorem C3_amended (lines : List Line)
    (hcand : sortedTitleCandidates lines ≠ [])
    (hhope : hopeTrigger (joinLower lines) = false) :
    pyEndsWith (extract_title lines) "  " = true := by
  unfold extract_title
  rcases hc : sortedTitleCandidates lines with _ | ⟨best, rest⟩
  · exact absurd hc hcand
  · have hafter : pyEndsWith (titleAfter lines best) "  " = true := by
      unfold titleAfter
      rw [if_neg (by simp [hhope])]
      exact pyEndsWith_append_spaces _
    dsimp only
    split_ifs
    · rcases bestContinuation best rest with _ | cont
      · exact hafter
      · exact pyEndsWith_append_spaces _
    · exact hafter

set_option maxRecDepth 1000000 in
unseal Rat.add Rat.mul Rat.inv Rat.sub in
/-- Witness for C3 at a one-line document with an accepted title. -/
theorem C3_amended_witness :
    sortedTitleCandidates exScore ≠ [] ∧
    pyEndsWith (extract_title exScore) "  " = true :=
  ⟨by decide, C3_amended exScore (by decide) (by decide)⟩

/-! ## Claim C4, amended: string-shape lemmas -/

theorem pyContains_iff_substring (hay needle : String) :
    pyContains hay needle = true ↔ needle.data <:+: hay.data := by
  unfold pyContains
  rw [List.any_eq_true]
  constructor
  · rintro ⟨t, ht, hpre⟩
    rw [List.mem_tails] at ht
    rw [List.isPrefixOf_iff_prefix] at hpre
    exact List.infix_iff_prefix_suffix.mpr ⟨t, hpre, ht⟩
  · intro h
    obtain ⟨t, hpre, hsuf⟩ := List.infix_iff_prefix_suffix.mp h
    exact ⟨t, (List.mem_tails _ _).mpr hsuf, List.isPrefixOf_iff_prefix.mpr hpre⟩

theorem prefix_collapseGo_false : ∀ (l p : List Char),
    (∀ c ∈ p, pyIsSpace c = false) → p <+: collapseGo false l → p <+: l := by
  intro l
  induction l with
  | nil =>
    intro p _ h
    simpa [collapseGo] using h
  | cons d r ih =>
    intro p hsp h
    rw [collapseGo] at h
    by_cases hd : pyIsSpace d = true
    · rw [if_pos hd] at h
      rcases p with _ | ⟨c, p'⟩
      · exact List.nil_prefix
      · exfalso
        simp only [Bool.false_eq_true, if_false] at h
        have hc := (List.cons_prefix_cons.mp h).1
        have hcs := hsp c (List.mem_cons_self c p')
        rw [hc] at hcs
        simp [pyIsSpace] at hcs
    · rw [if_neg hd] at h
      rcases p with _ | ⟨c, p'⟩
      · exact List.nil_prefix
      · rw [List.cons_prefix_cons] at h ⊢
        obtain ⟨rfl, h'⟩ := h
        exact ⟨rfl, ih p' (fun a ha => hsp a (List.mem_cons_of_mem _ ha)) h'⟩

theorem infix_collapseGo (p : List Char) (hne : p ≠ [])
    (hsp : ∀ c ∈ p, pyIsSpace c = false) : ∀ (l : List Char) (b : Bool),
    p <:+: collapseGo b l → p <:+: l := by
  intro l
  induction l with
  | nil =>
    intro b h
    rw [collapseGo] at h
    exact absurd (List.infix_nil.mp h) hne
  | cons d r ih =>
    intro b h
    rw [collapseGo] at h
    by_cases hd : pyIsSpace d = true
    · rw [if_pos hd] at h
      have hspace : ∀ X, p <:+: ' ' :: X → p <:+: collapseGo true r → p <:+: d :: r := by
        intro X _ hX
        exact List.infix_cons (ih true hX)
      rcases b with _ | _
      · simp only [Bool.false_eq_true, if_false] at h
        rcases List.infix_cons_iff.mp h with hpre | hinf
        · exfalso
          rcases p with _ | ⟨c, p'⟩
          · exact hne rfl
          · have hc := (List.cons_prefix_cons.mp hpre).1
            have := hsp c (List.mem_cons_self c p')
            rw [hc] at this
            simp [pyIsSpace] at this
        · exact List.infix_cons (ih true hinf)
      · simp only [if_true] at h
        exact List.infix_cons (ih true h)
    · rw [if_neg hd] at h
      rcases List.infix_cons_iff.mp h with hpre | hinf
      · rcases p with _ | ⟨c, p'⟩
        · exact absurd rfl hne
        · rw [List.cons_prefix_cons] at hpre
          obtain ⟨rfl, h'⟩ := hpre
          have hp' := prefix_collapseGo_false r p'
            (fun a ha => hsp a (List.mem_cons_of_mem _ ha)) h'
          exact (List.cons_prefix_cons.mpr ⟨rfl, hp'⟩).isInfix
      · exact List.infix_cons (ih false hinf)

theorem dropTrailingDots_data_front (s : String) :
    (dropTrailingDots s).data <+: s.data := by
  unfold dropTrailingDots
  conv_rhs => rw [← List.reverse_reverse s.data]
  rw [List.reverse_prefix]
  exact List.dropWhile_suffix _

theorem pyStrip_data_substring (s : String) : (pyStrip s).data <:+: s.data := by
  unfold pyStrip wsTrim
  have h1 : ((s.data.dropWhile pyIsSpace).reverse.dropWhile pyIsSpace).reverse <+:
      s.data.dropWhile pyIsSpace := by
    conv_rhs => rw [← List.reverse_reverse (s.data.dropWhile pyIsSpace)]
    rw [List.reverse_prefix]
    exact List.dropWhile_suffix _
  exact h1.isInfix.trans (List.dropWhile_suffix _).isInfix

theorem head_dropWhile_false (p : Char → Bool) : ∀ (l : List Char) (c : Char),
    (l.dropWhile p).head? = some c → p c = false := by
  intro l
  induction l with
  | nil => intro c h; simp at h
  | cons a t ih =>
    intro c h
    rw [List.dropWhile_cons] at h
    split_ifs at h with ha
    · exact ih c h
    · rw [List.head?_cons] at h
      injection h with h
      subst h
      simpa using ha

theorem pyStrip_getLast_not_space (s : String) (c : Char)
    (h : (pyStrip s).data.getLast? = some c) : pyIsSpace c = false := by
  unfold pyStrip wsTrim at h
  rw [List.getLast?_reverse] at h
  exact head_dropWhile_false _ _ _ h

theorem getLast_append_spaces (s : String) :
    (s ++ "  ").data.getLast? = some ' ' := by
  rw [String.data_append]
  have hd : ("  " : String).data = [' '] ++ [' '] := rfl
  rw [hd, ← List.append_assoc]
  exact List.getLast?_concat _

theorem strip_ne_append_spaces (x t : String) : pyStrip x ≠ t ++ "  " := by
  intro h
  have h1 := getLast_append_spaces t
  rw [← h] at h1
  have h2 := pyStrip_getLast_not_space x ' ' h1
  simp [pyIsSpace] at h2

/-! ## Claim C4, amended: heading provenance lemmas -/

theorem mem_validate_exists (hs : List Heading) (lines : List Line) (h' : Heading)
    (hmem : h' ∈ validate_page_numbers hs lines) : ∃ h ∈ hs, h'.text = h.text := by
  unfold validate_page_numbers at hmem
  obtain ⟨h, hh, rfl⟩ := List.mem_map.mp hmem
  exact ⟨h, hh, validateOne_text lines h⟩

theorem mem_insHeadingSorted (x a : Heading) : ∀ (l : List Heading),
    a ∈ insHeadingSorted x l ↔ a = x ∨ a ∈ l := by
  intro l
  induction l with
  | nil => simp [insHeadingSorted]
  | cons y ys ih =>
    rw [insHeadingSorted]
    split_ifs
    · simp
    · rw [List.mem_cons, ih, List.mem_cons]
      tauto

theorem mem_sortHeadings (a : Heading) (l : List Heading) :
    a ∈ sortHeadings l ↔ a ∈ l := by
  have aux : ∀ (l : List Heading) (acc : List Heading),
      a ∈ l.foldl (fun acc x => insHeadingSorted x acc) acc ↔ a ∈ acc ∨ a ∈ l := by
    intro l
    induction l with
    | nil => intro acc; simp
    | cons x xs ih =>
      intro acc
      rw [List.foldl_cons, ih, mem_insHeadingSorted, List.mem_cons]
      tauto
  rw [sortHeadings, aux]
  simp

theorem mem_cap40 (hs : List Heading) (h : Heading) (hmem : h ∈ cap40 hs) :
    h ∈ hs := by
  unfold cap40 at hmem
  split_ifs at hmem
  · exact (mem_sortHeadings h hs).mp (List.mem_of_mem_take hmem)
  · exact hmem

theorem mem_dedupQuality (hs : List Heading) (ds : DocStructure) (h : Heading)
    (hmem : h ∈ dedupQuality hs ds) : h ∈ hs := by
  have aux : ∀ (l : List Heading) (st : List Heading × List String),
      h ∈ (l.foldl (dedupStep ds) st).1 → h ∈ st.1 ∨ h ∈ l := by
    intro l
    induction l with
    | nil => intro st hm; exact Or.inl hm
    | cons x xs ih =>
      intro st hm
      rw [List.foldl_cons] at hm
      rcases ih (dedupStep ds st x) hm with hm' | hm'
      · unfold dedupStep at hm'
        dsimp only at hm'
        split_ifs at hm'
        · exact Or.inl hm'
        · rcases List.mem_append.mp hm' with hA | hB
          · exact Or.inl hA
          · exact Or.inr (List.mem_cons.mpr (Or.inl (List.mem_singleton.mp hB)))
        · exact Or.inl hm'
      · exact Or.inr (List.mem_cons_of_mem _ hm')
  unfold dedupQuality at hmem
  rcases aux hs ([], []) hmem with hm | hm
  · exact absurd hm (List.not_mem_nil h)
  · exact hm

theorem importantMutate_text (h : Heading) : (importantMutate h).text = h.text := by
  unfold importantMutate
  dsimp only
  split_ifs <;> rfl

theorem importantStep_keep_text (all_text : String) (h h' : Heading)
    (hk : importantStep all_text h = .keep h') : h'.text = h.text := by
  unfold importantStep at hk
  rcases hdec : importantDecision all_text h with _ | _ | _ <;> rw [hdec] at hk
  · injection hk with hx
    rw [← hx]
    exact importantMutate_text h
  · exact FiltStep.noConfusion hk
  · exact FiltStep.noConfusion hk

theorem mem_importantFilter (hs : List Heading) (all_text : String)
    (out : List Heading) (hf : importantFilter hs all_text = some out)
    (h' : Heading) (hmem : h' ∈ out) :
    ∃ h ∈ hs, importantStep all_text h = .keep h' := by
  have aux : ∀ (l : List Heading) (acc : Option (List Heading)) (out : List Heading),
      l.foldl (importantFoldStep all_text) acc = some out → h' ∈ out →
      (∃ l0, acc = some l0 ∧ h' ∈ l0) ∨
        ∃ h ∈ l, importantStep all_text h = .keep h' := by
    intro l
    induction l with
    | nil =>
      intro acc out hfold hm
      rw [List.foldl_nil] at hfold
      exact Or.inl ⟨out, hfold, hm⟩
    | cons x xs ih =>
      intro acc out hfold hm
      rw [List.foldl_cons] at hfold
      rcases ih _ _ hfold hm with ⟨l0, hacc, hl0⟩ | ⟨h, hh, hk⟩
      · unfold importantFoldStep at hacc
        rcases acc with _ | lacc
        · exact absurd hacc (by simp)
        · rcases hstep : importantStep all_text x with h2 | _ | _
          · rw [hstep] at hacc
            injection hacc with he
            subst he
            rcases List.mem_append.mp hl0 with hA | hB
            · exact Or.inl ⟨lacc, rfl, hA⟩
            · rw [← List.mem_singleton.mp hB] at hstep
              exact Or.inr ⟨x, List.mem_cons_self x xs, hstep⟩
          · rw [hstep] at hacc
            injection hacc with he
            subst he
            exact Or.inl ⟨lacc, rfl, hl0⟩
          · rw [hstep] at hacc
            exact absurd hacc (by simp)
      · exact Or.inr ⟨h, List.mem_cons_of_mem _ hh, hk⟩
  unfold importantFilter at hf
  rcases aux hs (some []) out hf hmem with ⟨l0, hacc, hl0⟩ | hex
  · injection hacc with he
    subst he
    exact absurd hl0 (List.not_mem_nil h')
  · exact hex

theorem classify_some_noSkip (line : Line) (ds : DocStructure) (lv : String)
    (hcl : classify_heading_level line ds = some lv) :
    anySkipWord (pyLower (pyStrip line.text)) = false := by
  unfold classify_heading_level at hcl
  by_cases hpre : preReject (pyStrip line.text) = true
  · rw [if_pos hpre] at hcl
    exact absurd hcl (by simp)
  · have hpre' : preReject (pyStrip line.text) = false := by simpa using hpre
    by_contra hskip
    have hskip' : anySkipWord (pyLower (pyStrip line.text)) = true := by
      simpa using hskip
    have : preReject (pyStrip line.text) = true := by
      unfold preReject
      rw [hskip']
      simp
    rw [this] at hpre'
    exact Bool.true_eq_false.mp hpre'

theorem mem_potentialHeadings (lines : List Line) (title : String)
    (ds : DocStructure) (h : Heading)
    (hmem : h ∈ potentialHeadings lines title ds) :
    ∃ l ∈ lines, h.text = headingTextClean (pyStrip l.text) ∧
      anySkipWord (pyLower (pyStrip l.text)) = false := by
  unfold potentialHeadings at hmem
  obtain ⟨l, hl, hf⟩ := List.mem_filterMap.mp hmem
  refine ⟨l, hl, ?_⟩
  dsimp only at hf
  split_ifs at hf <;> try exact Option.noConfusion hf
  rcases hcl : classify_heading_level l ds with _ | lv <;> rw [hcl] at hf
  · exact Option.noConfusion hf
  · injection hf with he
    rw [← he]
    exact ⟨rfl, classify_some_noSkip l ds lv hcl⟩

theorem pathwayOverride_mem (lines : List Line) (fb : List Heading) (h : Heading)
    (hm : h ∈ pathwayOverride lines fb) :
    (∃ l : Line, h = ⟨"H1", pyStrip l.text, 0⟩ ∧
      pyIsUpper (pyStrip l.text) = true) ∨ h ∈ fb := by
  unfold pathwayOverride at hm
  rcases h1 : pathwayCase1 lines with _ | l1
  · rw [h1] at hm
    rcases h2 : pathwayCase2 lines with _ | l2
    case some =>
      rw [h2] at hm
      have hp := List.find?_some h2
      simp only [Bool.and_eq_true] at hp
      exact Or.inl ⟨l2, List.mem_singleton.mp hm, hp.1.1⟩
    · rw [h2] at hm
      rcases hs : sortLinesDescBy Line.font_size (allCapsProminent lines) with _ | ⟨l', rest⟩
      · rw [hs] at hm
        exact Or.inr hm
      · rw [hs] at hm
        have hl' : l' ∈ allCapsProminent lines := by
          have : l' ∈ sortLinesDescBy Line.font_size (allCapsProminent lines) := by
            rw [hs]; exact List.mem_cons_self _ _
          exact (mem_sortLinesDescBy _ _ _).mp this
        rw [allCapsProminent, List.mem_filter] at hl'
        have hup : pyIsUpper (pyStrip l'.text) = true := by
          have := hl'.2
          simp only [Bool.and_eq_true] at this
          exact this.2
        exact Or.inl ⟨l', List.mem_singleton.mp hm, hup⟩
  · rw [h1] at hm
    have hp := List.find?_some h1
    simp only [Bool.and_eq_true] at hp
    exact Or.inl ⟨l1, List.mem_singleton.mp hm, hp.1.2⟩

/-! ## Claim C4, amended: assembly -/

/-- A general-pass heading text can never be "Untitled Document": the
cleaned text would have to contain "Document" (whitespace-free), hence
the raw line text contains "document" case-insensitively — but
"document" is a skip-word, so the classifier would have pre-rejected the
line. -/
theorem headingTextClean_ne_untitled (l : Line)
    (hskip : anySkipWord (pyLower (pyStrip l.text)) = false) :
    headingTextClean (pyStrip l.text) ≠ "Untitled Document" := by
  intro heq
  have hinf0 : ("Document" : String).data <:+:
      (headingTextClean (pyStrip l.text)).data := by
    rw [heq]
    exact ⟨("Untitled " : String).data, [], by decide⟩
  unfold headingTextClean at hinf0
  have h1 : ("Document" : String).data <:+:
      (collapseWs (dropTrailingDots (pyStrip l.text))).data :=
    hinf0.trans (pyStrip_data_substring _)
  have h2 : ("Document" : String).data <:+:
      (dropTrailingDots (pyStrip l.text)).data :=
    infix_collapseGo _ (by decide) (by decide) _ false h1
  have h3 : ("Document" : String).data <:+: (pyStrip l.text).data :=
    h2.trans (dropTrailingDots_data_front _).isInfix
  have h4 : ("document" : String).data <:+: (pyLower (pyStrip l.text)).data := by
    have hmap := h3.map Char.toLower
    have hd : ("document" : String).data =
        ("Document" : String).data.map Char.toLower := by decide
    rw [hd]
    exact hmap
  have h5 : pyContains (pyLower (pyStrip l.text)) "document" = true :=
    (pyContains_iff_substring _ _).mpr h4
  have h6 : anySkipWord (pyLower (pyStrip l.text)) = true := by
    unfold anySkipWord
    rw [List.any_eq_true]
    exact ⟨"document", by decide, h5⟩
  rw [h6] at hskip
  exact Bool.true_eq_false.mp hskip

/-- In non-poster mode the extracted title is either the literal
"Untitled Document" or some string with two trailing spaces appended. -/
theorem extract_title_shape (lines : List Line)
    (hhope : hopeTrigger (joinLower lines) = false) :
    extract_title lines = "Untitled Document" ∨
    ∃ s, extract_title lines = s ++ "  " := by
  unfold extract_title
  rcases sortedTitleCandidates lines with _ | ⟨best, rest⟩
  · exact Or.inl rfl
  · right
    dsimp only
    have hafter : ∃ s, titleAfter lines best = s ++ "  " := by
      unfold titleAfter
      rw [if_neg (by simp [hhope])]
      exact ⟨_, rfl⟩
    split_ifs
    · rcases bestContinuation best rest with _ | cont
      · exact hafter
      · exact ⟨_, rfl⟩
    · exact hafter

/-- C4, amended.  For every Line set that does not trigger the
hope/see/there poster override, no heading in the outline returned by
`extract_outline` has text equal to the title returned by
`extract_title`.  (The original claim also covered the title's
concatenated segments; `C4_counterexample` shows that part fails.) -/
theorem C4_amended (lines : List Line)
    (hhope : hopeTrigger (joinLower lines) = false) :
    ∀ h ∈ outlineHeadings (extract_outline lines),
      h.text ≠ extract_title lines := by
  intro h hmem
  simp only [extract_outline] at hmem
  by_cases hform : 8 ≤ formCount (joinLower lines)
  · rw [if_pos hform] at hmem
    exact absurd hmem (List.not_mem_nil h)
  · rw [if_neg hform] at hmem
    rcases himp : importantFilter
        (potentialHeadings lines (extract_title lines)
          (analyze_document_structure lines)) (joinLower lines) with _ | imp
    · rw [himp] at hmem
      exact absurd hmem (List.not_mem_nil h)
    · rw [himp] at hmem
      dsimp only at hmem
      rw [if_neg (by simp [hhope])] at hmem
      rw [outlineHeadings] at hmem
      -- back through the cap and the page validation
      obtain ⟨h0, hh0, htext⟩ := mem_validate_exists _ lines h (mem_cap40 _ h hmem)
      -- h0 comes from the pathway override or from the general pass
      have hshape : (∃ x, h0.text = pyStrip x) ∧ h0.text ≠ "Untitled Document" := by
        have hgeneral : ∀ h1 : Heading,
            h1 ∈ dedupQuality imp (analyze_document_structure lines) →
            (∃ x, h1.text = pyStrip x) ∧ h1.text ≠ "Untitled Document" := by
          intro h1 hd
          obtain ⟨h2, hh2, hk⟩ := mem_importantFilter _ _ _ himp h1
            (mem_dedupQuality _ _ _ hd)
          obtain ⟨l, _, hcl, hns⟩ := mem_potentialHeadings _ _ _ _ hh2
          have ht : h1.text = headingTextClean (pyStrip l.text) := by
            rw [importantStep_keep_text _ _ _ hk, hcl]
          constructor
          · exact ⟨collapseWs (dropTrailingDots (pyStrip l.text)), ht⟩
          · rw [ht]
            exact headingTextClean_ne_untitled l hns
        by_cases hpath : pathwayTrigger (joinLower lines) = true
        · rw [if_pos hpath] at hh0
          rcases pathwayOverride_mem lines _ h0 hh0 with ⟨l, rfl, hup⟩ | hfb
          · refine ⟨⟨l.text, rfl⟩, ?_⟩
            intro hc
            simp only at hc
            rw [hc] at hup
            exact absurd hup (by decide)
          · exact hgeneral h0 hfb
        · rw [if_neg hpath] at hh0
          exact hgeneral h0 hh0
      rcases extract_title_shape lines hhope with hta | ⟨s, hta⟩
      · rw [hta, htext]
        exact hshape.2
      · rw [hta, htext]
        obtain ⟨x, hx⟩ := hshape.1
        rw [hx]
        exact strip_ne_append_spaces x s

set_option maxRecDepth 1000000 in
unseal Rat.add Rat.mul Rat.inv Rat.sub in
/-- Witness for C4 (amended) at a concrete non-poster document. -/
theorem C4_amended_witness :
    hopeTrigger (joinLower exSegment) = false ∧
    (∀ h ∈ outlineHeadings (extract_outline exSegment),
      h.text ≠ extract_title exSegment) :=
  ⟨by decide, C4_amended exSegment (by decide)⟩

end PdfExtract
